import Mathlib

/-!
Verification of `Optional<T>` (optional.h)

A shallow embedding of the class template `Optional<T>`: an inline buffer `data_` that
may hold one `T`, and the flag `is_initialized_`.

* The buffer is an `Option T`: `some v` while a `T` with value `v` lives in it, `none`
  while it is raw memory.  The flag is a separate `Bool`, as in the source, so that a
  flag that disagrees with the buffer can be expressed.
* The element type is a parameter: `TOps` gives the behaviour of its constructors and
  assignment operators, each of which may throw.
* Every member function returns the instance afterwards, the list of element
  operations that ran to completion (in program order), and how the call ended.
-/

namespace OptionalSpec

/-! ## The element type -/

/-- An operation of the element type that ran to completion inside a buffer. -/
inductive Ev
  | construct
  | destroy
  | assign
  deriving DecidableEq, Repr

/-- How a call ends: normally, with `BadOptionalAccess`, with an exception of the
element type, or by touching a buffer that holds no object (undefined behaviour). -/
inductive Res (E α : Type)
  | ok (a : α)
  | badOptionalAccess
  | thrown (e : E)
  | undefined
  deriving DecidableEq, Repr

/-- Behaviour of the element type `T`, with constructor argument lists `A` and
exceptions `E`.

* `make args` is `T(args...)`.
* `copyCtor v` is `T(const T&)` on a source of value `v`.
* `moveCtor v` is `T(T&&)`: the source afterwards, and the new object or the exception.
* `copyAssign dst src` is `dst = src`: the target afterwards and the exception, if any.
* `moveAssign dst src` is `dst = std::move(src)`: target and source afterwards.
* `copyAssignSelf v` and `moveAssignSelf v` are the same operators when target and
  source are one object. -/
structure TOps (T A E : Type) where
  make : A → Except E T
  copyCtor : T → Except E T
  moveCtor : T → T × Except E T
  copyAssign : T → T → T × Option E
  moveAssign : T → T → T × T × Option E
  copyAssignSelf : T → T × Option E
  moveAssignSelf : T → T × Option E

/-! ## The class -/

/-- The data members of `Optional<T>`. -/
structure Optional (T : Type) where
  data_ : Option T
  is_initialized_ : Bool
  deriving DecidableEq, Repr

/-- Outcome of a call of a non-const member function. -/
structure Call (T E α : Type) where
  self : Optional T
  trace : List Ev
  res : Res E α
  deriving DecidableEq, Repr

/-- Outcome of a member function that also takes another instance by rvalue reference. -/
structure Call2 (T E α : Type) where
  self : Optional T
  rhs : Optional T
  trace : List Ev
  res : Res E α
  deriving DecidableEq, Repr

/-- Outcome of a constructor: the new instance, unless the constructor threw. -/
structure Made (T E : Type) where
  trace : List Ev
  res : Res E (Optional T)
  deriving DecidableEq, Repr

/-- Outcome of the move constructor: as `Made`, with the source afterwards. -/
structure Made2 (T E : Type) where
  other : Optional T
  trace : List Ev
  res : Res E (Optional T)
  deriving DecidableEq, Repr

/-- The arguments `Vs &&...vs` of `Emplace`.  They are references, which the
constructor of `T` reads when it runs.  Either none of them refers to the object in
the buffer of the instance itself, and they amount to the argument list `vs`; or some
of them do (as in `o.Emplace(*o)`), and they amount to the argument list `f x` for
as long as that object is live, with value `x`. -/
inductive Forwarded (T A : Type)
  | independent (vs : A)
  | contained (f : T → A)

/-- The argument list that the constructor of `T` reads from the forwarded arguments
while the buffer of the instance is `buf`; `none` when an argument refers to the
object of a buffer that holds no live object. -/
def Forwarded.read {T A : Type} : Forwarded T A → Option T → Option A
  | .independent vs, _ => some vs
  | .contained f, some x => some (f x)
  | .contained _, none => none

namespace Optional

variable {T A E : Type}

/-- An instance with no object in the buffer and the flag cleared. -/
def empty : Optional T := ⟨none, false⟩

/-- An instance whose buffer holds a `T` of value `v`, with the flag set. -/
def occupied (v : T) : Optional T := ⟨some v, true⟩

/-- The flag agrees with the buffer. -/
def Consistent (s : Optional T) : Prop := s.is_initialized_ = s.data_.isSome

instance (s : Optional T) : Decidable (Consistent s) := by
  unfold Consistent; infer_instance

/-- Source: `Optional() = default;` the buffer is left raw, the flag takes its initialiser. -/
def default : Optional T := ⟨none, false⟩

/-- Source: `bool HasValue() const`. -/
def HasValue (s : Optional T) : Bool := s.is_initialized_

/-- Source: `T &operator*() &`, and the const and rvalue forms: the buffer, with no check. -/
def deref (s : Optional T) : Res E T :=
  match s.data_ with
  | some v => .ok v
  | none => .undefined

/-- Source: `const T &Value() const &`. -/
def ValueConst (s : Optional T) : Res E T :=
  if !s.is_initialized_ then .badOptionalAccess
  else
    match s.data_ with
    | some v => .ok v
    | none => .undefined

/-- Source: `T &Value() &`. -/
def Value (s : Optional T) : Call T E T :=
  if !s.is_initialized_ then ⟨s, [], .badOptionalAccess⟩
  else
    match s.data_ with
    | some v => ⟨s, [], .ok v⟩
    | none => ⟨s, [], .undefined⟩

/-- Source: `T &&Value() &&`: `std::move` only casts the reference. -/
def ValueRvalue (s : Optional T) : Call T E T :=
  if !s.is_initialized_ then ⟨s, [], .badOptionalAccess⟩
  else
    match s.data_ with
    | some v => ⟨s, [], .ok v⟩
    | none => ⟨s, [], .undefined⟩

/-- Source: `void Reset()`. -/
def Reset (s : Optional T) : Call T E Unit :=
  if s.is_initialized_ then
    match s.data_ with
    | some _ => ⟨⟨none, false⟩, [.destroy], .ok ()⟩
    | none => ⟨⟨none, false⟩, [.destroy], .undefined⟩
  else ⟨⟨s.data_, false⟩, [], .ok ()⟩

/-- Source: `~Optional() { Reset(); }`. -/
def destructor (s : Optional T) : Call T E Unit := Reset s

/-- Source: `Optional(const T &value) : is_initialized_(true)`. -/
def ofConstRef (ops : TOps T A E) (value : T) : Made T E :=
  match ops.copyCtor value with
  | .ok t => ⟨[.construct], .ok ⟨some t, true⟩⟩
  | .error e => ⟨[], .thrown e⟩

/-- Source: `Optional(T &&value) : is_initialized_(true)`. -/
def ofRvalue (ops : TOps T A E) (value : T) : Made T E :=
  match (ops.moveCtor value).2 with
  | .ok t => ⟨[.construct], .ok ⟨some t, true⟩⟩
  | .error e => ⟨[], .thrown e⟩

/-- Source: `Optional(const Optional &other) : is_initialized_(other.is_initialized_)`. -/
def copy (ops : TOps T A E) (other : Optional T) : Made T E :=
  if other.is_initialized_ then
    match (ValueConst other : Res E T) with
    | .ok v =>
      match ops.copyCtor v with
      | .ok t => ⟨[.construct], .ok ⟨some t, other.is_initialized_⟩⟩
      | .error e => ⟨[], .thrown e⟩
    | .badOptionalAccess => ⟨[], .badOptionalAccess⟩
    | .thrown e => ⟨[], .thrown e⟩
    | .undefined => ⟨[], .undefined⟩
  else ⟨[], .ok ⟨none, other.is_initialized_⟩⟩

/-- Source: `Optional(Optional &&other) : is_initialized_(std::move(other.is_initialized_))`. -/
def move (ops : TOps T A E) (other : Optional T) : Made2 T E :=
  if other.is_initialized_ then
    match (Value other : Call T E T).res with
    | .ok v =>
      match ops.moveCtor v with
      | (src, .ok t) =>
        ⟨⟨some src, other.is_initialized_⟩, [.construct], .ok ⟨some t, other.is_initialized_⟩⟩
      | (src, .error e) => ⟨⟨some src, other.is_initialized_⟩, [], .thrown e⟩
    | .badOptionalAccess => ⟨other, [], .badOptionalAccess⟩
    | .thrown e => ⟨other, [], .thrown e⟩
    | .undefined => ⟨other, [], .undefined⟩
  else ⟨other, [], .ok ⟨none, other.is_initialized_⟩⟩

/-- Source: `Optional &operator=(const T &value)`. -/
def assignConstRef (ops : TOps T A E) (s : Optional T) (value : T) : Call T E Unit :=
  if !s.is_initialized_ then
    match ops.copyCtor value with
    | .ok t => ⟨⟨some t, true⟩, [.construct], .ok ()⟩
    | .error e => ⟨s, [], .thrown e⟩
  else
    match s.data_ with
    | some cur =>
      match ops.copyAssign cur value with
      | (cur', none) => ⟨⟨some cur', s.is_initialized_⟩, [.assign], .ok ()⟩
      | (cur', some e) => ⟨⟨some cur', s.is_initialized_⟩, [], .thrown e⟩
    | none => ⟨s, [], .undefined⟩

/-- Source: `Optional &operator=(T &&rhs)`. -/
def assignRvalue (ops : TOps T A E) (s : Optional T) (rhs : T) : Call T E Unit :=
  if !s.is_initialized_ then
    match (ops.moveCtor rhs).2 with
    | .ok t => ⟨⟨some t, true⟩, [.construct], .ok ()⟩
    | .error e => ⟨s, [], .thrown e⟩
  else
    match s.data_ with
    | some cur =>
      match ops.moveAssign cur rhs with
      | (cur', _, none) => ⟨⟨some cur', s.is_initialized_⟩, [.assign], .ok ()⟩
      | (cur', _, some e) => ⟨⟨some cur', s.is_initialized_⟩, [], .thrown e⟩
    | none => ⟨s, [], .undefined⟩

/-- Source: `Optional &operator=(const Optional &rhs)`, for `rhs` another instance. -/
def assignCopy (ops : TOps T A E) (s rhs : Optional T) : Call T E Unit :=
  if !s.is_initialized_ then
    if rhs.is_initialized_ then
      match (ValueConst rhs : Res E T) with
      | .ok v =>
        match ops.copyCtor v with
        | .ok t => ⟨⟨some t, rhs.is_initialized_⟩, [.construct], .ok ()⟩
        | .error e => ⟨s, [], .thrown e⟩
      | .badOptionalAccess => ⟨s, [], .badOptionalAccess⟩
      | .thrown e => ⟨s, [], .thrown e⟩
      | .undefined => ⟨s, [], .undefined⟩
    else ⟨s, [], .ok ()⟩
  else
    if rhs.is_initialized_ then
      match (ValueConst rhs : Res E T) with
      | .ok v =>
        match s.data_ with
        | some cur =>
          match ops.copyAssign cur v with
          | (cur', none) => ⟨⟨some cur', s.is_initialized_⟩, [.assign], .ok ()⟩
          | (cur', some e) => ⟨⟨some cur', s.is_initialized_⟩, [], .thrown e⟩
        | none => ⟨s, [], .undefined⟩
      | .badOptionalAccess => ⟨s, [], .badOptionalAccess⟩
      | .thrown e => ⟨s, [], .thrown e⟩
      | .undefined => ⟨s, [], .undefined⟩
    else Reset s

/-- Source: `Optional &operator=(const Optional &rhs)` when `rhs` is `*this`. -/
def assignCopySelf (ops : TOps T A E) (s : Optional T) : Call T E Unit :=
  if !s.is_initialized_ then
    if s.is_initialized_ then
      match (ValueConst s : Res E T) with
      | .ok v =>
        match ops.copyCtor v with
        | .ok t => ⟨⟨some t, s.is_initialized_⟩, [.construct], .ok ()⟩
        | .error e => ⟨s, [], .thrown e⟩
      | .badOptionalAccess => ⟨s, [], .badOptionalAccess⟩
      | .thrown e => ⟨s, [], .thrown e⟩
      | .undefined => ⟨s, [], .undefined⟩
    else ⟨s, [], .ok ()⟩
  else
    if s.is_initialized_ then
      match (ValueConst s : Res E T) with
      | .ok v =>
        match ops.copyAssignSelf v with
        | (cur', none) => ⟨⟨some cur', s.is_initialized_⟩, [.assign], .ok ()⟩
        | (cur', some e) => ⟨⟨some cur', s.is_initialized_⟩, [], .thrown e⟩
      | .badOptionalAccess => ⟨s, [], .badOptionalAccess⟩
      | .thrown e => ⟨s, [], .thrown e⟩
      | .undefined => ⟨s, [], .undefined⟩
    else Reset s

/-- Source: `Optional &operator=(Optional &&rhs)`, for `rhs` another instance. -/
def assignMove (ops : TOps T A E) (s rhs : Optional T) : Call2 T E Unit :=
  if !s.is_initialized_ then
    if rhs.is_initialized_ then
      match (Value rhs : Call T E T).res with
      | .ok v =>
        match ops.moveCtor v with
        | (src, .ok t) =>
          ⟨⟨some t, rhs.is_initialized_⟩, ⟨some src, rhs.is_initialized_⟩, [.construct], .ok ()⟩
        | (src, .error e) => ⟨s, ⟨some src, rhs.is_initialized_⟩, [], .thrown e⟩
      | .badOptionalAccess => ⟨s, rhs, [], .badOptionalAccess⟩
      | .thrown e => ⟨s, rhs, [], .thrown e⟩
      | .undefined => ⟨s, rhs, [], .undefined⟩
    else ⟨s, rhs, [], .ok ()⟩
  else
    if rhs.is_initialized_ then
      match (Value rhs : Call T E T).res with
      | .ok v =>
        match s.data_ with
        | some cur =>
          match ops.moveAssign cur v with
          | (cur', src, none) =>
            ⟨⟨some cur', s.is_initialized_⟩, ⟨some src, rhs.is_initialized_⟩, [.assign], .ok ()⟩
          | (cur', src, some e) =>
            ⟨⟨some cur', s.is_initialized_⟩, ⟨some src, rhs.is_initialized_⟩, [], .thrown e⟩
        | none => ⟨s, rhs, [], .undefined⟩
      | .badOptionalAccess => ⟨s, rhs, [], .badOptionalAccess⟩
      | .thrown e => ⟨s, rhs, [], .thrown e⟩
      | .undefined => ⟨s, rhs, [], .undefined⟩
    else
      let r : Call T E Unit := Reset s
      ⟨r.self, rhs, r.trace, r.res⟩

/-- Source: `Optional &operator=(Optional &&rhs)` when `rhs` is `*this`. -/
def assignMoveSelf (ops : TOps T A E) (s : Optional T) : Call T E Unit :=
  if !s.is_initialized_ then
    if s.is_initialized_ then
      match (Value s : Call T E T).res with
      | .ok v =>
        match ops.moveCtor v with
        | (_, .ok t) => ⟨⟨some t, s.is_initialized_⟩, [.construct], .ok ()⟩
        | (src, .error e) => ⟨⟨some src, s.is_initialized_⟩, [], .thrown e⟩
      | .badOptionalAccess => ⟨s, [], .badOptionalAccess⟩
      | .thrown e => ⟨s, [], .thrown e⟩
      | .undefined => ⟨s, [], .undefined⟩
    else ⟨s, [], .ok ()⟩
  else
    if s.is_initialized_ then
      match (Value s : Call T E T).res with
      | .ok v =>
        match ops.moveAssignSelf v with
        | (cur', none) => ⟨⟨some cur', s.is_initialized_⟩, [.assign], .ok ()⟩
        | (cur', some e) => ⟨⟨some cur', s.is_initialized_⟩, [], .thrown e⟩
      | .badOptionalAccess => ⟨s, [], .badOptionalAccess⟩
      | .thrown e => ⟨s, [], .thrown e⟩
      | .undefined => ⟨s, [], .undefined⟩
    else Reset s

/-- Source: `template <typename... Vs> void Emplace(Vs &&...vs)`.  The forwarded
arguments are read by the placement new, after `Reset()` has run: an argument that
refers to the contained object is then read from a buffer that holds no object. -/
def Emplace (ops : TOps T A E) (s : Optional T) (vs : Forwarded T A) : Call T E Unit :=
  let r : Call T E Unit := if HasValue s then Reset s else ⟨s, [], .ok ()⟩
  match r.res with
  | .ok _ =>
    match vs.read r.self.data_ with
    | some args =>
      match ops.make args with
      | .ok t => ⟨⟨some t, true⟩, r.trace ++ [.construct], .ok ()⟩
      | .error e => ⟨r.self, r.trace, .thrown e⟩
    | none => ⟨r.self, r.trace, .undefined⟩
  | .badOptionalAccess => ⟨r.self, r.trace, .badOptionalAccess⟩
  | .thrown e => ⟨r.self, r.trace, .thrown e⟩
  | .undefined => ⟨r.self, r.trace, .undefined⟩

end Optional

/-! ## Client programs over several instances -/

/-- A public operation of a client program.  Instances are numbered in the order in
which they are constructed.  The arguments of `emplace` are objects of the client
outside the buffer of instance `i`. -/
inductive Op (T A : Type)
  | mkDefault
  | mkConstRef (v : T)
  | mkRvalue (v : T)
  | mkCopy (j : Nat)
  | mkMove (j : Nat)
  | setConstRef (i : Nat) (v : T)
  | setRvalue (i : Nat) (v : T)
  | setCopy (i j : Nat)
  | setMove (i j : Nat)
  | emplace (i : Nat) (vs : A)
  | reset (i : Nat)
  | value (i : Nat)
  | valueConst (i : Nat)
  | valueRvalue (i : Nat)
  | hasValue (i : Nat)
  deriving DecidableEq, Repr

/-- Whether a call ended in undefined behaviour. -/
def Res.isUndefined {E α : Type} : Res E α → Bool
  | .undefined => true
  | _ => false

/-- The outcome of a call, without its value. -/
def Res.forget {E α : Type} : Res E α → Res E Unit
  | .ok _ => .ok ()
  | .badOptionalAccess => .badOptionalAccess
  | .thrown e => .thrown e
  | .undefined => .undefined

/-- Element operations of instance number `i`. -/
def tag (i : Nat) (tr : List Ev) : List (Nat × Ev) := tr.map (fun e => (i, e))

/-- The element operations a trace records for instance number `i`. -/
def slotTrace (i : Nat) (tr : List (Nat × Ev)) : List Ev :=
  (tr.filter (fun p => p.1 == i)).map Prod.snd

/-- Replays the element operations of one buffer, starting with or without a live
object in it.  Gives whether an object is live at the end, and `none` as soon as an
object is constructed over a live one (which is then never destroyed), or an object
is destroyed or assigned to where none is live. -/
def lifetime : Bool → List Ev → Option Bool
  | live, [] => some live
  | false, .construct :: tr => lifetime true tr
  | true, .destroy :: tr => lifetime false tr
  | true, .assign :: tr => lifetime true tr
  | true, .construct :: _ => none
  | false, .destroy :: _ => none
  | false, .assign :: _ => none

/-- Outcome of one operation of a client program. -/
structure Step (T E : Type) where
  world : List (Optional T)
  trace : List (Nat × Ev)
  res : Res E Unit
  deriving DecidableEq, Repr

/-- A call on instance `i` that changes only that instance. -/
def onSlot {T E α : Type} (w : List (Optional T)) (i : Nat)
    (f : Optional T → Call T E α) : Step T E :=
  match w[i]? with
  | some o =>
    let c := f o
    ⟨w.set i c.self, tag i c.trace, c.res.forget⟩
  | none => ⟨w, [], .ok ()⟩

/-- A declaration of a new instance, which gets the next number. -/
def onNew {T E : Type} (w : List (Optional T)) (m : Made T E) : Step T E :=
  match m.res with
  | .ok o => ⟨w ++ [o], tag w.length m.trace, .ok ()⟩
  | .badOptionalAccess => ⟨w, tag w.length m.trace, .badOptionalAccess⟩
  | .thrown e => ⟨w, tag w.length m.trace, .thrown e⟩
  | .undefined => ⟨w, tag w.length m.trace, .undefined⟩

/-- One operation of a client program on the instances constructed so far.  An
operation that names an instance not yet constructed does nothing. -/
def step {T A E : Type} (ops : TOps T A E) (w : List (Optional T)) : Op T A → Step T E
  | .mkDefault => ⟨w ++ [Optional.default], [], .ok ()⟩
  | .mkConstRef v => onNew w (Optional.ofConstRef ops v)
  | .mkRvalue v => onNew w (Optional.ofRvalue ops v)
  | .mkCopy j =>
    match w[j]? with
    | some o => onNew w (Optional.copy ops o)
    | none => ⟨w, [], .ok ()⟩
  | .mkMove j =>
    match w[j]? with
    | some o =>
      let m := Optional.move ops o
      onNew (w.set j m.other) ⟨m.trace, m.res⟩
    | none => ⟨w, [], .ok ()⟩
  | .setConstRef i v => onSlot w i (fun o => Optional.assignConstRef ops o v)
  | .setRvalue i v => onSlot w i (fun o => Optional.assignRvalue ops o v)
  | .setCopy i j =>
    if i = j then onSlot w i (fun o => Optional.assignCopySelf ops o)
    else
      match w[j]? with
      | some r => onSlot w i (fun o => Optional.assignCopy ops o r)
      | none => ⟨w, [], .ok ()⟩
  | .setMove i j =>
    if i = j then onSlot w i (fun o => Optional.assignMoveSelf ops o)
    else
      match w[i]?, w[j]? with
      | some o, some r =>
        let c := Optional.assignMove ops o r
        ⟨(w.set i c.self).set j c.rhs, tag i c.trace, c.res⟩
      | _, _ => ⟨w, [], .ok ()⟩
  | .emplace i vs => onSlot w i (fun o => Optional.Emplace ops o (.independent vs))
  | .reset i => onSlot w i (fun o => (Optional.Reset o : Call T E Unit))
  | .value i => onSlot w i (fun o => (Optional.Value o : Call T E T))
  | .valueConst i =>
    match w[i]? with
    | some o => ⟨w, [], (Optional.ValueConst o : Res E T).forget⟩
    | none => ⟨w, [], .ok ()⟩
  | .valueRvalue i => onSlot w i (fun o => (Optional.ValueRvalue o : Call T E T))
  | .hasValue _ => ⟨w, [], .ok ()⟩

/-- Outcome of a client program: the instances at the end, all element operations in
program order, and whether some call ended in undefined behaviour. -/
structure Run (T : Type) where
  world : List (Optional T)
  trace : List (Nat × Ev)
  undefined : Bool
  deriving DecidableEq, Repr

/-- Runs a client program from the given instances.  An exception that leaves a call
is caught by the client, which goes on with its next operation. -/
def runFrom {T A E : Type} (ops : TOps T A E) :
    List (Optional T) → List (Op T A) → Run T
  | w, [] => ⟨w, [], false⟩
  | w, op :: rest =>
    let s := step ops w op
    let r := runFrom ops s.world rest
    ⟨r.world, s.trace ++ r.trace, s.res.isUndefined || r.undefined⟩

/-- Runs a client program that starts with no instance. -/
def run {T A E : Type} (ops : TOps T A E) (prog : List (Op T A)) : Run T :=
  runFrom ops [] prog

/-- Destroys the instances `k`, `k + 1`, ... held in the list: the element operations
of the destructors, and whether one of them ended in undefined behaviour. -/
def destroyFrom {T : Type} (E : Type) : Nat → List (Optional T) → List (Nat × Ev) × Bool
  | _, [] => ([], false)
  | k, o :: rest =>
    let c : Call T E Unit := Optional.destructor o
    let r := destroyFrom E (k + 1) rest
    (tag k c.trace ++ r.1, c.res.isUndefined || r.2)

/-- A whole client program: the operations, then the destructor of every instance. -/
def runAndDestroy {T A E : Type} (ops : TOps T A E) (prog : List (Op T A)) :
    List (Nat × Ev) × Bool :=
  let r := run ops prog
  let d := destroyFrom E 0 r.world
  (r.trace ++ d.1, r.undefined || d.2)

/-! ## Soundness of a call with respect to the lifetime of the contained object -/

/-- The flag of instance number `i`; false for an instance not yet constructed. -/
def flagAt {T : Type} (w : List (Optional T)) (i : Nat) : Bool :=
  match w[i]? with
  | some o => o.is_initialized_
  | none => false

/-- Every instance of a program state has its flag in agreement with its buffer. -/
def AllConsistent {T : Type} (w : List (Optional T)) : Prop := ∀ o ∈ w, o.Consistent

/-- A call on the instance `s` is sound when it leaves a consistent instance, does not
end in undefined behaviour, and its element operations form a lifetime that leads
from the flag of `s` to the flag afterwards. -/
def Call.Sound {T E α : Type} (s : Optional T) (c : Call T E α) : Prop :=
  c.self.Consistent ∧ c.res.isUndefined = false ∧
    lifetime s.is_initialized_ c.trace = some c.self.is_initialized_

/-- The flag of a newly constructed instance; false when the constructor threw. -/
def Made.flag {T E : Type} (m : Made T E) : Bool :=
  match m.res with
  | .ok o => o.is_initialized_
  | _ => false

/-- A constructor call is sound when the new instance, if any, is consistent, the call
does not end in undefined behaviour, and its element operations form a lifetime that
leads from a raw buffer to the flag of the new instance. -/
def Made.Sound {T E : Type} (m : Made T E) : Prop :=
  (∀ o, m.res = .ok o → o.Consistent) ∧ m.res.isUndefined = false ∧
    lifetime false m.trace = some m.flag

/-- An operation of a client program is sound when it keeps all instances consistent,
does not end in undefined behaviour, and for each instance the element operations it
records form a lifetime that leads from the flag before to the flag afterwards. -/
def Step.Sound {T E : Type} (w : List (Optional T)) (s : Step T E) : Prop :=
  AllConsistent s.world ∧ s.res.isUndefined = false ∧
    ∀ i, lifetime (flagAt w i) (slotTrace i s.trace) = some (flagAt s.world i)

/-! ## Live objects, and the tagged union of the design notes -/

/-- The number of live `T` objects in the buffer of an instance. -/
def Optional.liveCount {T : Type} (s : Optional T) : Nat :=
  match s.data_ with
  | some _ => 1
  | none => 0

/-- Whether the buffer of instance number `i` holds a live object; false for an
instance not yet constructed. -/
def liveAt {T : Type} (w : List (Optional T)) (i : Nat) : Bool :=
  match w[i]? with
  | some o => o.data_.isSome
  | none => false

/-- An element type is regular when its copy and move constructors and its copy and
move assignments never throw and give the target the value of the source. -/
def TOps.Regular {T A E : Type} (ops : TOps T A E) : Prop :=
  (∀ x, ops.copyCtor x = .ok x) ∧ (∀ x, (ops.moveCtor x).2 = .ok x) ∧
  (∀ y x, ops.copyAssign y x = (x, none)) ∧
  (∀ y x, (ops.moveAssign y x).1 = x ∧ (ops.moveAssign y x).2.2 = none)

/-- The tagged union `{Empty, Occupied(T)}` that the design notes recommend in place
of the flag and the buffer. -/
inductive TaggedUnion (T : Type)
  | Empty
  | Occupied (v : T)
  deriving DecidableEq, Repr

namespace TaggedUnion

variable {T E : Type}

/-- Default construction is `Empty`. -/
def default : TaggedUnion T := .Empty

/-- Construction from the value `v` is `Occupied v`. -/
def ofValue (v : T) : TaggedUnion T := .Occupied v

/-- Copy construction yields the source. -/
def copy (rhs : TaggedUnion T) : TaggedUnion T := rhs

/-- Copy assignment yields the source. -/
def assignCopy (_lhs rhs : TaggedUnion T) : TaggedUnion T := rhs

/-- Assignment of the raw value `v` yields `Occupied v`. -/
def assignValue (_lhs : TaggedUnion T) (v : T) : TaggedUnion T := .Occupied v

/-- Emplace yields `Occupied t`, for `t` the object `T(args...)`. -/
def emplace (_lhs : TaggedUnion T) (t : T) : TaggedUnion T := .Occupied t

/-- Reset yields `Empty`. -/
def reset (_lhs : TaggedUnion T) : TaggedUnion T := .Empty

/-- HasValue tells whether the union is `Occupied`. -/
def hasValue : TaggedUnion T → Bool
  | .Empty => false
  | .Occupied _ => true

/-- Value returns `v` on `Occupied v` and raises `BadOptionalAccess` on `Empty`. -/
def value : TaggedUnion T → Res E T
  | .Empty => .badOptionalAccess
  | .Occupied v => .ok v

end TaggedUnion

/-- The abstraction: `Empty` when the flag is clear, `Occupied v` when the flag is set
and the buffer holds the value `v`. -/
def Optional.abs {T : Type} (s : Optional T) : TaggedUnion T :=
  if s.is_initialized_ then
    match s.data_ with
    | some v => .Occupied v
    | none => .Empty
  else .Empty

/-! ## A concrete element type, for evaluation -/

/-- An element type over `Nat`: `T(a, b)` holds `a + b` and throws when `a` is `0`;
copying or moving the value `13` throws; a moved-from object holds `0`. -/
def natOps : TOps Nat (Nat × Nat) Nat where
  make := fun p => if p.1 = 0 then .error 1 else .ok (p.1 + p.2)
  copyCtor := fun v => if v = 13 then .error 2 else .ok v
  moveCtor := fun v => if v = 13 then (v, .error 3) else (0, .ok v)
  copyAssign := fun dst src => if src = 13 then (dst, some 4) else (src, none)
  moveAssign := fun dst src => if src = 13 then (dst, src, some 5) else (src, 0, none)
  copyAssignSelf := fun v => (v, none)
  moveAssignSelf := fun v => (v, none)

/-- A regular element type over `Nat`: `T(a, b)` holds `a + b`, nothing throws, and a
moved-from object holds `0`. -/
def regOps : TOps Nat (Nat × Nat) Nat where
  make := fun p => .ok (p.1 + p.2)
  copyCtor := fun v => .ok v
  moveCtor := fun v => (0, .ok v)
  copyAssign := fun _ src => (src, none)
  moveAssign := fun _ src => (src, 0, none)
  copyAssignSelf := fun v => (v, none)
  moveAssignSelf := fun v => (v, none)

end OptionalSpec

/-! ## Checked access, construction, Emplace, Reset -/

namespace OptionalSpec

open Optional

variable {T A E : Type}

theorem consistent_iff (s : Optional T) :
    s.Consistent ↔ s = Optional.empty ∨ ∃ v, s = occupied v := by
  rcases s with ⟨d, f⟩
  cases d <;> cases f <;> simp [Consistent, Optional.empty, occupied]

/-- C1. Each of the three forms of `Value()` ends with `BadOptionalAccess` exactly when
`HasValue()` is false, whatever the state of the instance; on an instance occupied with
the value `v` each form ends normally and returns `v`. -/
theorem Value_badOptionalAccess_iff_empty (s : Optional T) (v : T) :
    (((Value s : Call T E T).res = .badOptionalAccess ↔ HasValue s = false) ∧
     ((ValueConst s : Res E T) = .badOptionalAccess ↔ HasValue s = false) ∧
     ((ValueRvalue s : Call T E T).res = .badOptionalAccess ↔ HasValue s = false)) ∧
    ((Value (occupied v) : Call T E T).res = .ok v ∧
     (ValueConst (occupied v) : Res E T) = .ok v ∧
     (ValueRvalue (occupied v) : Call T E T).res = .ok v) := by
  rcases s with ⟨d, f⟩
  cases d <;> cases f <;>
    simp [Value, ValueConst, ValueRvalue, HasValue, occupied]

/-- C2. A default-constructed instance reports `HasValue() == false`.  When the copy
(the move) constructor of `T` makes from `v` an object of value `v`, the instance
constructed from `v` by copy (by move) exists, reports `HasValue() == true`, and both
`Value()` and `operator*` give `v`. -/
theorem construct_then_access (ops : TOps T A E) (v : T)
    (hc : ops.copyCtor v = .ok v) (hm : (ops.moveCtor v).2 = .ok v) :
    HasValue (Optional.default : Optional T) = false ∧
    (∃ o, (ofConstRef ops v).res = .ok o ∧ HasValue o = true ∧
      (Value o : Call T E T).res = .ok v ∧ (ValueConst o : Res E T) = .ok v ∧
      (deref o : Res E T) = .ok v) ∧
    (∃ o, (ofRvalue ops v).res = .ok o ∧ HasValue o = true ∧
      (Value o : Call T E T).res = .ok v ∧ (ValueConst o : Res E T) = .ok v ∧
      (deref o : Res E T) = .ok v) := by
  refine ⟨rfl, ⟨occupied v, ?_⟩, ⟨occupied v, ?_⟩⟩
  · simp [ofConstRef, hc, occupied, HasValue, Value, ValueConst, deref]
  · simp [ofRvalue, hm, occupied, HasValue, Value, ValueConst, deref]

theorem construct_then_access_witness :
    HasValue (Optional.default : Optional Nat) = false ∧
    (∃ o, (ofConstRef natOps 5).res = .ok o ∧ HasValue o = true ∧
      (Value o : Call Nat Nat Nat).res = .ok 5 ∧ (ValueConst o : Res Nat Nat) = .ok 5 ∧
      (deref o : Res Nat Nat) = .ok 5) ∧
    (∃ o, (ofRvalue natOps 5).res = .ok o ∧ HasValue o = true ∧
      (Value o : Call Nat Nat Nat).res = .ok 5 ∧ (ValueConst o : Res Nat Nat) = .ok 5 ∧
      (deref o : Res Nat Nat) = .ok 5) :=
  construct_then_access natOps 5 rfl rfl

/-- C3, refuted as stated: on an instance occupied with `7`, `Emplace` with arguments
that refer to the contained object, as in `o.Emplace(*o, *o)`, for which `T(7, 7)`
succeeds with `14`, does not end normally: `Reset()` destroys the object before the
constructor reads it, and the call ends in undefined behaviour. -/
theorem Emplace_of_contained_undefined :
    natOps.make ((fun x => (x, x)) 7) = .ok 14 ∧
    (Emplace natOps (occupied 7) (.contained (fun x => (x, x)))).res = .undefined ∧
    ¬ ((Emplace natOps (occupied 7) (.contained (fun x => (x, x)))).res = .ok () ∧
       HasValue (Emplace natOps (occupied 7) (.contained (fun x => (x, x)))).self = true ∧
       (Value (Emplace natOps (occupied 7) (.contained (fun x => (x, x)))).self
         : Call Nat Nat Nat).res = .ok 14) :=
  ⟨rfl, rfl, fun h => by cases h.1⟩

/-- C3, amended.  From every consistent prior state (empty, or occupied with any
value), for arguments that do not refer to the contained object: when `T(args...)`
succeeds with the object `t`, `Emplace(args...)` ends normally, after it `HasValue()`
is true and `Value()` returns `t` without error. -/
theorem Emplace_then_Value (ops : TOps T A E) (s : Optional T) (vs : A) (t : T)
    (hs : s.Consistent) (hmake : ops.make vs = .ok t) :
    (Emplace ops s (.independent vs)).res = .ok () ∧
    HasValue (Emplace ops s (.independent vs)).self = true ∧
    (Value (Emplace ops s (.independent vs)).self : Call T E T).res = .ok t ∧
    (ValueConst (Emplace ops s (.independent vs)).self : Res E T) = .ok t := by
  rcases (consistent_iff s).1 hs with rfl | ⟨x, rfl⟩ <;>
    simp [Emplace, Forwarded.read, Reset, HasValue, Optional.empty, occupied, hmake,
      Value, ValueConst]

theorem Emplace_then_Value_witness :
    (Emplace natOps (occupied 7) (.independent (2, 3))).res = .ok () ∧
    HasValue (Emplace natOps (occupied 7) (.independent (2, 3))).self = true ∧
    (Value (Emplace natOps (occupied 7) (.independent (2, 3))).self
      : Call Nat Nat Nat).res = .ok 5 ∧
    (ValueConst (Emplace natOps (occupied 7) (.independent (2, 3))).self
      : Res Nat Nat) = .ok 5 :=
  Emplace_then_Value natOps (occupied 7) (2, 3) 5 (by decide) rfl

/-- C4. `Reset()` is idempotent on every consistent state: the second call ends in the
state the first one left, that state is empty, and the second call destroys nothing.
The first call performs exactly one destruction on an occupied instance and no
element operation on an empty one. -/
theorem Reset_idempotent (s : Optional T) (hs : s.Consistent) :
    (Reset (Reset s : Call T E Unit).self : Call T E Unit).self
      = (Reset s : Call T E Unit).self ∧
    (Reset s : Call T E Unit).self = Optional.empty ∧
    (Reset (Reset s : Call T E Unit).self : Call T E Unit).trace = [] ∧
    (Reset s : Call T E Unit).trace = (if HasValue s then [Ev.destroy] else []) ∧
    (Reset s : Call T E Unit).res = .ok () ∧
    (Reset (Reset s : Call T E Unit).self : Call T E Unit).res = .ok () := by
  rcases (consistent_iff s).1 hs with rfl | ⟨x, rfl⟩ <;>
    simp [Reset, HasValue, Optional.empty, occupied]

theorem Reset_idempotent_witness :
    (Reset (Reset (occupied 7) : Call Nat Nat Unit).self : Call Nat Nat Unit).self
      = (Reset (occupied 7) : Call Nat Nat Unit).self ∧
    (Reset (occupied 7) : Call Nat Nat Unit).self = Optional.empty ∧
    (Reset (Reset (occupied 7) : Call Nat Nat Unit).self : Call Nat Nat Unit).trace = [] ∧
    (Reset (occupied 7) : Call Nat Nat Unit).trace
      = (if HasValue (occupied 7) then [Ev.destroy] else []) ∧
    (Reset (occupied 7) : Call Nat Nat Unit).res = .ok () ∧
    (Reset (Reset (occupied 7) : Call Nat Nat Unit).self : Call Nat Nat Unit).res = .ok () :=
  Reset_idempotent (occupied 7) (by decide)

/-! ## Assignment -/

/-- C5. Copy assignment `lhs = rhs` between two instances, case by case, for an
element type whose copy constructor and copy assignment succeed with a copy of `x`:
empty from occupied constructs one `T` and `lhs` becomes occupied with `x`; empty from
empty performs no element operation and `lhs` stays empty; occupied from occupied
performs one assignment, no construction and no destruction, and `lhs` holds `x`;
occupied from empty performs one destruction and `lhs` becomes empty. -/
theorem assignCopy_four_cases (ops : TOps T A E) (x y : T)
    (hc : ops.copyCtor x = .ok x) (ha : ops.copyAssign y x = (x, none)) :
    assignCopy ops Optional.empty (occupied x) = ⟨occupied x, [.construct], .ok ()⟩ ∧
    assignCopy ops Optional.empty Optional.empty = ⟨Optional.empty, [], .ok ()⟩ ∧
    assignCopy ops (occupied y) (occupied x) = ⟨occupied x, [.assign], .ok ()⟩ ∧
    assignCopy ops (occupied y) Optional.empty = ⟨Optional.empty, [.destroy], .ok ()⟩ := by
  simp [assignCopy, ValueConst, Reset, Optional.empty, occupied, hc, ha]

theorem assignCopy_four_cases_witness :
    assignCopy natOps Optional.empty (occupied 5) = ⟨occupied 5, [.construct], .ok ()⟩ ∧
    assignCopy natOps Optional.empty Optional.empty = ⟨Optional.empty, [], .ok ()⟩ ∧
    assignCopy natOps (occupied 7) (occupied 5) = ⟨occupied 5, [.assign], .ok ()⟩ ∧
    assignCopy natOps (occupied 7) Optional.empty
      = ⟨Optional.empty, [.destroy], .ok ()⟩ :=
  assignCopy_four_cases natOps 5 7 rfl rfl

/-- C6. Assignment of a raw value `v`, by copy and by move, for an element type whose
constructors and assignments succeed with the value `v`: on an empty instance exactly
one `T` is constructed; on an instance occupied with `y` exactly one assignment is
performed, with no destruction and no construction; in both cases the call ends
normally, `HasValue()` is true afterwards and the stored value is `v`. -/
theorem assign_raw_value (ops : TOps T A E) (v y : T)
    (hc : ops.copyCtor v = .ok v) (hm : (ops.moveCtor v).2 = .ok v)
    (hca : ops.copyAssign y v = (v, none))
    (hma : (ops.moveAssign y v).1 = v ∧ (ops.moveAssign y v).2.2 = none) :
    (assignConstRef ops Optional.empty v = ⟨occupied v, [.construct], .ok ()⟩ ∧
     assignRvalue ops Optional.empty v = ⟨occupied v, [.construct], .ok ()⟩) ∧
    (assignConstRef ops (occupied y) v = ⟨occupied v, [.assign], .ok ()⟩ ∧
     assignRvalue ops (occupied y) v = ⟨occupied v, [.assign], .ok ()⟩) ∧
    (HasValue (occupied v) = true ∧ (ValueConst (occupied v) : Res E T) = .ok v) := by
  obtain ⟨h1, h2⟩ := hma
  rcases hx : ops.moveAssign y v with ⟨d, src, e⟩
  rw [hx] at h1 h2
  simp only at h1 h2
  subst h1 h2
  refine ⟨⟨?_, ?_⟩, ⟨?_, ?_⟩, ?_⟩
  · simp [assignConstRef, Optional.empty, occupied, hc]
  · simp [assignRvalue, Optional.empty, occupied, hm]
  · simp [assignConstRef, occupied, hca]
  · simp [assignRvalue, occupied, hx]
  · simp [HasValue, ValueConst, occupied]

theorem assign_raw_value_witness :
    (assignConstRef natOps Optional.empty 5 = ⟨occupied 5, [.construct], .ok ()⟩ ∧
     assignRvalue natOps Optional.empty 5 = ⟨occupied 5, [.construct], .ok ()⟩) ∧
    (assignConstRef natOps (occupied 7) 5 = ⟨occupied 5, [.assign], .ok ()⟩ ∧
     assignRvalue natOps (occupied 7) 5 = ⟨occupied 5, [.assign], .ok ()⟩) ∧
    (HasValue (occupied 5) = true ∧ (ValueConst (occupied 5) : Res Nat Nat) = .ok 5) :=
  assign_raw_value natOps 5 7 rfl rfl rfl ⟨rfl, rfl⟩

/-! ## Move -/

/-- C8. Moving from a source occupied with `y`, for an element type whose move
constructor succeeds with the value `y`: the move constructor, and move assignment to
an empty instance, give an instance occupied with `y` after one construction; the
source afterwards still reports `HasValue() == true` and still holds one live `T`,
the moved-from object.  Moving from an empty source: the move constructor gives an
empty instance; move assignment destroys the value of an occupied target and leaves
an empty target empty, with the source still empty. -/
theorem move_from_occupied (ops : TOps T A E) (y z : T)
    (hm : (ops.moveCtor y).2 = .ok y) :
    (move ops (occupied y)
        = ⟨occupied (ops.moveCtor y).1, [.construct], .ok (occupied y)⟩ ∧
     assignMove ops Optional.empty (occupied y)
        = ⟨occupied y, occupied (ops.moveCtor y).1, [.construct], .ok ()⟩ ∧
     HasValue (move ops (occupied y)).other = true ∧
     HasValue (assignMove ops Optional.empty (occupied y)).rhs = true ∧
     (move ops (occupied y)).other.data_ = some (ops.moveCtor y).1 ∧
     (assignMove ops Optional.empty (occupied y)).rhs.data_ = some (ops.moveCtor y).1) ∧
    (move ops Optional.empty = ⟨Optional.empty, [], .ok Optional.empty⟩ ∧
     assignMove ops (occupied z) Optional.empty
        = ⟨Optional.empty, Optional.empty, [.destroy], .ok ()⟩ ∧
     assignMove ops Optional.empty Optional.empty
        = ⟨Optional.empty, Optional.empty, [], .ok ()⟩) := by
  rcases hx : ops.moveCtor y with ⟨src, r⟩
  rw [hx] at hm
  simp only at hm
  subst hm
  simp [move, assignMove, Reset, Value, HasValue, Optional.empty, occupied, hx]

theorem move_from_occupied_witness :
    (move natOps (occupied 5)
        = ⟨occupied (natOps.moveCtor 5).1, [.construct], .ok (occupied 5)⟩ ∧
     assignMove natOps Optional.empty (occupied 5)
        = ⟨occupied 5, occupied (natOps.moveCtor 5).1, [.construct], .ok ()⟩ ∧
     HasValue (move natOps (occupied 5)).other = true ∧
     HasValue (assignMove natOps Optional.empty (occupied 5)).rhs = true ∧
     (move natOps (occupied 5)).other.data_ = some (natOps.moveCtor 5).1 ∧
     (assignMove natOps Optional.empty (occupied 5)).rhs.data_
        = some (natOps.moveCtor 5).1) ∧
    (move natOps Optional.empty = ⟨Optional.empty, [], .ok Optional.empty⟩ ∧
     assignMove natOps (occupied 7) Optional.empty
        = ⟨Optional.empty, Optional.empty, [.destroy], .ok ()⟩ ∧
     assignMove natOps Optional.empty Optional.empty
        = ⟨Optional.empty, Optional.empty, [], .ok ()⟩) :=
  move_from_occupied natOps 5 7 rfl

/-! ## Failure of the construction of the new object -/

/-- C10, refuted as stated: `Emplace` on an instance occupied with `7`, with arguments
for which the constructor of `T` throws, propagates that exception and leaves the
instance empty, the previous value destroyed: the state is not the prior one. -/
theorem Emplace_occupied_failure_not_restored :
    natOps.make (0, 1) = .error 1 ∧
    (Emplace natOps (occupied 7) (.independent (0, 1))).res = .thrown 1 ∧
    (Emplace natOps (occupied 7) (.independent (0, 1))).self = Optional.empty ∧
    (Emplace natOps (occupied 7) (.independent (0, 1))).trace = [.destroy] ∧
    (Emplace natOps (occupied 7) (.independent (0, 1))).self ≠ occupied 7 :=
  ⟨rfl, rfl, rfl, rfl, by decide⟩

/-- C10, amended.  Raw-value assignment and assignment from another instance construct
a new `T` only when the flag of the target is clear, and so does `Emplace` without a
prior `Reset()`: from every such state `s`, when the constructor of `T` throws `e`, the
call ends with `e`, no element operation has completed and the instance is `s` again.
`Emplace` on an instance occupied with `y` has destroyed `y` before it constructs:
when the constructor throws `e` the call ends with `e` and the instance is empty, after
exactly one destruction. -/
theorem construction_failure_state (ops : TOps T A E) (s : Optional T) (v y : T) (vs : A)
    (e₁ e₂ e₃ : E) (hs : s.is_initialized_ = false)
    (hc : ops.copyCtor v = .error e₁) (hm : (ops.moveCtor v).2 = .error e₂)
    (hmk : ops.make vs = .error e₃) :
    assignConstRef ops s v = ⟨s, [], .thrown e₁⟩ ∧
    assignRvalue ops s v = ⟨s, [], .thrown e₂⟩ ∧
    assignCopy ops s (occupied v) = ⟨s, [], .thrown e₁⟩ ∧
    ((assignMove ops s (occupied v)).self = s ∧
     (assignMove ops s (occupied v)).trace = [] ∧
     (assignMove ops s (occupied v)).res = .thrown e₂) ∧
    Emplace ops s (.independent vs) = ⟨s, [], .thrown e₃⟩ ∧
    Emplace ops (occupied y) (.independent vs)
      = ⟨Optional.empty, [.destroy], .thrown e₃⟩ := by
  rcases hx : ops.moveCtor v with ⟨src, r⟩
  rw [hx] at hm
  simp only at hm
  subst hm
  simp [assignConstRef, assignRvalue, assignCopy, assignMove, Emplace, Forwarded.read,
    Reset, Value, ValueConst, HasValue, Optional.empty, occupied, hs, hc, hx, hmk]

theorem construction_failure_state_witness :
    assignConstRef natOps (Optional.empty : Optional Nat) 13
      = ⟨Optional.empty, [], .thrown 2⟩ ∧
    assignRvalue natOps (Optional.empty : Optional Nat) 13
      = ⟨Optional.empty, [], .thrown 3⟩ ∧
    assignCopy natOps (Optional.empty : Optional Nat) (occupied 13)
      = ⟨Optional.empty, [], .thrown 2⟩ ∧
    ((assignMove natOps (Optional.empty : Optional Nat) (occupied 13)).self
        = Optional.empty ∧
     (assignMove natOps (Optional.empty : Optional Nat) (occupied 13)).trace = [] ∧
     (assignMove natOps (Optional.empty : Optional Nat) (occupied 13)).res = .thrown 3) ∧
    Emplace natOps (Optional.empty : Optional Nat) (.independent (0, 1))
      = ⟨Optional.empty, [], .thrown 1⟩ ∧
    Emplace natOps (occupied 7) (.independent (0, 1))
      = ⟨Optional.empty, [.destroy], .thrown 1⟩ :=
  construction_failure_state natOps Optional.empty 13 7 (0, 1) 2 3 1 rfl rfl rfl rfl

/-! ## Independence of copies -/

theorem getElem?_onSlot_ne {α : Type} (w : List (Optional T)) (a b : Nat) (hab : a ≠ b)
    (f : Optional T → Call T E α) :
    (onSlot w b f).world[a]? = w[a]? := by
  unfold onSlot
  cases w[b]? with
  | none => rfl
  | some o => simp [List.getElem?_set_ne (Ne.symm hab)]

/-- C7. In a program where instance `a` is occupied with `x` and the element type
copies `x` faithfully: after declaring a new instance as a copy of `a`, and after the
copy assignment `b = a` to any other consistent instance `b`, instance `a` is still
occupied with `x` and the copy is occupied with `x`; and whatever raw value is then
assigned to the copy, by copy or by move, or emplaced in it, instance `a` is still
occupied with `x`. -/
theorem copy_independent (ops : TOps T A E) (w : List (Optional T)) (a b : Nat) (x : T)
    (B : Optional T) (hab : a ≠ b) (hA : w[a]? = some (occupied x)) (hB : w[b]? = some B)
    (hBc : B.Consistent) (hc : ops.copyCtor x = .ok x)
    (ha : ∀ y, ops.copyAssign y x = (x, none)) :
    ((step ops w (.mkCopy a)).res = .ok () ∧
     (step ops w (.mkCopy a)).world[a]? = some (occupied x) ∧
     (step ops w (.mkCopy a)).world[w.length]? = some (occupied x) ∧
     ∀ (v : T) (vs : A),
      (step ops (step ops w (.mkCopy a)).world (.setConstRef w.length v)).world[a]?
        = some (occupied x) ∧
      (step ops (step ops w (.mkCopy a)).world (.setRvalue w.length v)).world[a]?
        = some (occupied x) ∧
      (step ops (step ops w (.mkCopy a)).world (.emplace w.length vs)).world[a]?
        = some (occupied x)) ∧
    ((step ops w (.setCopy b a)).res = .ok () ∧
     (step ops w (.setCopy b a)).world[a]? = some (occupied x) ∧
     (step ops w (.setCopy b a)).world[b]? = some (occupied x) ∧
     ∀ (v : T) (vs : A),
      (step ops (step ops w (.setCopy b a)).world (.setConstRef b v)).world[a]?
        = some (occupied x) ∧
      (step ops (step ops w (.setCopy b a)).world (.setRvalue b v)).world[a]?
        = some (occupied x) ∧
      (step ops (step ops w (.setCopy b a)).world (.emplace b vs)).world[a]?
        = some (occupied x)) := by
  have hlt : a < w.length := by
    rcases Nat.lt_or_ge a w.length with h | h
    · exact h
    · rw [List.getElem?_eq_none h] at hA; cases hA
  have hblt : b < w.length := by
    rcases Nat.lt_or_ge b w.length with h | h
    · exact h
    · rw [List.getElem?_eq_none h] at hB; cases hB
  have hne : a ≠ w.length := Nat.ne_of_lt hlt
  have h1 : step ops w (.mkCopy a) = ⟨w ++ [occupied x], [(w.length, .construct)], .ok ()⟩ := by
    simp [step, hA, onNew, Optional.copy, ValueConst, occupied, hc, tag]
  have h2 : step ops w (.setCopy b a)
      = ⟨w.set b (occupied x), tag b (assignCopy ops B (occupied x)).trace, .ok ()⟩ := by
    have hself : (assignCopy ops B (occupied x)).self = occupied x ∧
        (assignCopy ops B (occupied x)).res = .ok () := by
      rcases (consistent_iff B).1 hBc with rfl | ⟨y, rfl⟩ <;>
        simp [assignCopy, ValueConst, Optional.empty, occupied, hc, ha]
    simp [step, Ne.symm hab, hA, onSlot, hB, hself.1, hself.2, Res.forget]
  have h1a : (w ++ [occupied x])[a]? = some (occupied x) := by
    rw [List.getElem?_append_left hlt]; exact hA
  have h2a : (w.set b (occupied x))[a]? = some (occupied x) := by
    rw [List.getElem?_set_ne (Ne.symm hab)]; exact hA
  refine ⟨⟨?_, ?_, ?_, ?_⟩, ?_, ?_, ?_, ?_⟩
  · rw [h1]
  · rw [h1]; exact h1a
  · rw [h1]; simp
  · intro v vs
    rw [h1]
    simp only [step]
    rw [getElem?_onSlot_ne _ _ _ hne, getElem?_onSlot_ne _ _ _ hne,
      getElem?_onSlot_ne _ _ _ hne]
    exact ⟨h1a, h1a, h1a⟩
  · rw [h2]
  · rw [h2]; exact h2a
  · rw [h2]; simp [hblt]
  · intro v vs
    rw [h2]
    simp only [step]
    rw [getElem?_onSlot_ne _ _ _ hab, getElem?_onSlot_ne _ _ _ hab,
      getElem?_onSlot_ne _ _ _ hab]
    exact ⟨h2a, h2a, h2a⟩

theorem copy_independent_witness :
    ((step natOps [occupied 5, occupied 7] (.mkCopy 0)).res = .ok () ∧
     (step natOps [occupied 5, occupied 7] (.mkCopy 0)).world[0]? = some (occupied 5) ∧
     (step natOps [occupied 5, occupied 7] (.mkCopy 0)).world[2]? = some (occupied 5) ∧
     ∀ (v : Nat) (vs : Nat × Nat),
      (step natOps (step natOps [occupied 5, occupied 7] (.mkCopy 0)).world
        (.setConstRef 2 v)).world[0]?
        = some (occupied 5) ∧
      (step natOps (step natOps [occupied 5, occupied 7] (.mkCopy 0)).world
        (.setRvalue 2 v)).world[0]?
        = some (occupied 5) ∧
      (step natOps (step natOps [occupied 5, occupied 7] (.mkCopy 0)).world
        (.emplace 2 vs)).world[0]?
        = some (occupied 5)) ∧
    ((step natOps [occupied 5, occupied 7] (.setCopy 1 0)).res = .ok () ∧
     (step natOps [occupied 5, occupied 7] (.setCopy 1 0)).world[0]? = some (occupied 5) ∧
     (step natOps [occupied 5, occupied 7] (.setCopy 1 0)).world[1]? = some (occupied 5) ∧
     ∀ (v : Nat) (vs : Nat × Nat),
      (step natOps (step natOps [occupied 5, occupied 7] (.setCopy 1 0)).world
        (.setConstRef 1 v)).world[0]? = some (occupied 5) ∧
      (step natOps (step natOps [occupied 5, occupied 7] (.setCopy 1 0)).world
        (.setRvalue 1 v)).world[0]? = some (occupied 5) ∧
      (step natOps (step natOps [occupied 5, occupied 7] (.setCopy 1 0)).world
        (.emplace 1 vs)).world[0]? = some (occupied 5)) :=
  copy_independent natOps [occupied 5, occupied 7] 0 1 5 (occupied 7) (by decide) rfl rfl
    (by decide) rfl (fun _ => rfl)

/-! ## Lifetimes: no leak, no double destruction -/

theorem lifetime_nil (b : Bool) : lifetime b [] = some b := by
  cases b <;> rfl

theorem lifetime_append (b : Bool) (t₁ t₂ : List Ev) :
    lifetime b (t₁ ++ t₂) = (lifetime b t₁).bind (fun c => lifetime c t₂) := by
  induction t₁ generalizing b with
  | nil => simp [lifetime_nil]
  | cons e t ih =>
    cases b <;> cases e <;> simp [lifetime, ih]

theorem lifetime_count (b c : Bool) (tr : List Ev) (h : lifetime b tr = some c) :
    tr.count .construct + b.toNat = tr.count .destroy + c.toNat := by
  induction tr generalizing b with
  | nil =>
    rw [lifetime_nil] at h
    cases h
    simp
  | cons e t ih =>
    cases b <;> cases e <;> simp only [lifetime] at h
    all_goals first
      | cases h
      | exact (by
          have hi := ih _ h
          simp [List.count_cons] at hi ⊢
          omega)

theorem slotTrace_append (i : Nat) (t₁ t₂ : List (Nat × Ev)) :
    slotTrace i (t₁ ++ t₂) = slotTrace i t₁ ++ slotTrace i t₂ := by
  simp [slotTrace]

theorem slotTrace_tag (i k : Nat) (tr : List Ev) :
    slotTrace i (tag k tr) = if k = i then tr else [] := by
  induction tr with
  | nil => simp [slotTrace, tag]
  | cons e t ih =>
    simp only [slotTrace, tag, List.map_cons, List.filter_cons] at ih ⊢
    by_cases h : k = i
    · simp [h] at ih ⊢
      exact ih
    · simp [h]

theorem Value_sound (s : Optional T) (hs : s.Consistent) :
    Call.Sound s (Value s : Call T E T) := by
  rcases (consistent_iff s).1 hs with rfl | ⟨x, rfl⟩ <;>
    simp [Call.Sound, Value, Optional.empty, occupied, Consistent, Res.isUndefined,
      lifetime]

theorem ValueRvalue_sound (s : Optional T) (hs : s.Consistent) :
    Call.Sound s (ValueRvalue s : Call T E T) := by
  rcases (consistent_iff s).1 hs with rfl | ⟨x, rfl⟩ <;>
    simp [Call.Sound, ValueRvalue, Optional.empty, occupied, Consistent, Res.isUndefined,
      lifetime]

theorem Reset_sound (s : Optional T) (hs : s.Consistent) :
    Call.Sound s (Reset s : Call T E Unit) := by
  rcases (consistent_iff s).1 hs with rfl | ⟨x, rfl⟩ <;>
    simp [Call.Sound, Reset, Optional.empty, occupied, Consistent, Res.isUndefined,
      lifetime]

theorem Reset_flag (s : Optional T) (hs : s.Consistent) :
    (Reset s : Call T E Unit).self.is_initialized_ = false := by
  rcases (consistent_iff s).1 hs with rfl | ⟨x, rfl⟩ <;>
    simp [Reset, Optional.empty, occupied]

theorem assignConstRef_sound (ops : TOps T A E) (s : Optional T) (v : T)
    (hs : s.Consistent) : Call.Sound s (assignConstRef ops s v) := by
  rcases (consistent_iff s).1 hs with rfl | ⟨x, rfl⟩
  · rcases h : ops.copyCtor v with e | t <;>
      simp [assignConstRef, Optional.empty, h, Call.Sound, Consistent, Res.isUndefined,
        lifetime]
  · rcases h : ops.copyAssign x v with ⟨c, _ | e⟩ <;>
      simp [assignConstRef, occupied, h, Call.Sound, Consistent, Res.isUndefined,
        lifetime]

theorem assignRvalue_sound (ops : TOps T A E) (s : Optional T) (v : T)
    (hs : s.Consistent) : Call.Sound s (assignRvalue ops s v) := by
  rcases (consistent_iff s).1 hs with rfl | ⟨x, rfl⟩
  · rcases h : ops.moveCtor v with ⟨src, e | t⟩ <;>
      simp [assignRvalue, Optional.empty, h, Call.Sound, Consistent, Res.isUndefined,
        lifetime]
  · rcases h : ops.moveAssign x v with ⟨c, src, _ | e⟩ <;>
      simp [assignRvalue, occupied, h, Call.Sound, Consistent, Res.isUndefined,
        lifetime]

theorem assignCopy_sound (ops : TOps T A E) (s rhs : Optional T)
    (hs : s.Consistent) (hr : rhs.Consistent) : Call.Sound s (assignCopy ops s rhs) := by
  rcases (consistent_iff s).1 hs with rfl | ⟨x, rfl⟩ <;>
    rcases (consistent_iff rhs).1 hr with rfl | ⟨y, rfl⟩
  · simp [assignCopy, Optional.empty, Call.Sound, Consistent, Res.isUndefined, lifetime]
  · rcases h : ops.copyCtor y with e | t <;>
      simp [assignCopy, ValueConst, Optional.empty, occupied, h, Call.Sound, Consistent,
        Res.isUndefined, lifetime]
  · simp [assignCopy, Reset, Optional.empty, occupied, Call.Sound, Consistent,
      Res.isUndefined, lifetime]
  · rcases h : ops.copyAssign x y with ⟨c, _ | e⟩ <;>
      simp [assignCopy, ValueConst, occupied, h, Call.Sound, Consistent,
        Res.isUndefined, lifetime]

theorem assignCopySelf_sound (ops : TOps T A E) (s : Optional T)
    (hs : s.Consistent) : Call.Sound s (assignCopySelf ops s) := by
  rcases (consistent_iff s).1 hs with rfl | ⟨x, rfl⟩
  · simp [assignCopySelf, Optional.empty, Call.Sound, Consistent, Res.isUndefined,
      lifetime]
  · rcases h : ops.copyAssignSelf x with ⟨c, _ | e⟩ <;>
      simp [assignCopySelf, ValueConst, occupied, h, Call.Sound, Consistent,
        Res.isUndefined, lifetime]

theorem assignMoveSelf_sound (ops : TOps T A E) (s : Optional T)
    (hs : s.Consistent) : Call.Sound s (assignMoveSelf ops s) := by
  rcases (consistent_iff s).1 hs with rfl | ⟨x, rfl⟩
  · simp [assignMoveSelf, Optional.empty, Call.Sound, Consistent, Res.isUndefined,
      lifetime]
  · rcases h : ops.moveAssignSelf x with ⟨c, _ | e⟩ <;>
      simp [assignMoveSelf, Value, occupied, h, Call.Sound, Consistent,
        Res.isUndefined, lifetime]

theorem Emplace_sound (ops : TOps T A E) (s : Optional T) (vs : A)
    (hs : s.Consistent) : Call.Sound s (Emplace ops s (.independent vs)) := by
  rcases (consistent_iff s).1 hs with rfl | ⟨x, rfl⟩ <;>
    rcases h : ops.make vs with e | t <;>
      simp [Emplace, Forwarded.read, Reset, HasValue, Optional.empty, occupied, h,
        Call.Sound, Consistent, Res.isUndefined, lifetime]

theorem Emplace_consistent (ops : TOps T A E) (s : Optional T) (vs : Forwarded T A)
    (hs : s.Consistent) : (Emplace ops s vs).self.Consistent := by
  cases vs with
  | independent a => exact (Emplace_sound ops s a hs).1
  | contained f =>
    rcases (consistent_iff s).1 hs with rfl | ⟨x, rfl⟩ <;>
      simp [Emplace, Forwarded.read, Reset, HasValue, Optional.empty, occupied,
        Consistent]

theorem assignMove_sound (ops : TOps T A E) (s rhs : Optional T)
    (hs : s.Consistent) (hr : rhs.Consistent) :
    (assignMove ops s rhs).self.Consistent ∧
    (assignMove ops s rhs).rhs.Consistent ∧
    (assignMove ops s rhs).rhs.is_initialized_ = rhs.is_initialized_ ∧
    (assignMove ops s rhs).res.isUndefined = false ∧
    lifetime s.is_initialized_ (assignMove ops s rhs).trace
      = some (assignMove ops s rhs).self.is_initialized_ := by
  rcases (consistent_iff s).1 hs with rfl | ⟨x, rfl⟩ <;>
    rcases (consistent_iff rhs).1 hr with rfl | ⟨y, rfl⟩
  · simp [assignMove, Optional.empty, Consistent, Res.isUndefined, lifetime]
  · rcases h : ops.moveCtor y with ⟨src, e | t⟩ <;>
      simp [assignMove, Value, Optional.empty, occupied, h, Consistent,
        Res.isUndefined, lifetime]
  · simp [assignMove, Reset, Optional.empty, occupied, Consistent,
      Res.isUndefined, lifetime]
  · rcases h : ops.moveAssign x y with ⟨c, src, _ | e⟩ <;>
      simp [assignMove, Value, occupied, h, Consistent, Res.isUndefined, lifetime]

theorem ofConstRef_sound (ops : TOps T A E) (v : T) : (ofConstRef ops v).Sound := by
  rcases h : ops.copyCtor v with e | t <;>
    simp [ofConstRef, h, Made.Sound, Made.flag, Consistent, Res.isUndefined, lifetime]

theorem ofRvalue_sound (ops : TOps T A E) (v : T) : (ofRvalue ops v).Sound := by
  rcases h : ops.moveCtor v with ⟨src, e | t⟩ <;>
    simp [ofRvalue, h, Made.Sound, Made.flag, Consistent, Res.isUndefined, lifetime]

theorem copy_sound (ops : TOps T A E) (o : Optional T) (ho : o.Consistent) :
    (Optional.copy ops o).Sound := by
  rcases (consistent_iff o).1 ho with rfl | ⟨y, rfl⟩
  · simp [Optional.copy, Optional.empty, Made.Sound, Made.flag, Consistent,
      Res.isUndefined, lifetime]
  · rcases h : ops.copyCtor y with e | t <;>
      simp [Optional.copy, ValueConst, occupied, h, Made.Sound, Made.flag, Consistent,
        Res.isUndefined, lifetime]

theorem move_sound (ops : TOps T A E) (o : Optional T) (ho : o.Consistent) :
    (Optional.move ops o).other.Consistent ∧
    (Optional.move ops o).other.is_initialized_ = o.is_initialized_ ∧
    Made.Sound ⟨(Optional.move ops o).trace, (Optional.move ops o).res⟩ := by
  rcases (consistent_iff o).1 ho with rfl | ⟨y, rfl⟩
  · simp [Optional.move, Optional.empty, Made.Sound, Made.flag, Consistent,
      Res.isUndefined, lifetime]
  · rcases h : ops.moveCtor y with ⟨src, e | t⟩ <;>
      simp [Optional.move, Value, occupied, h, Made.Sound, Made.flag, Consistent,
        Res.isUndefined, lifetime]

theorem flagAt_set (w : List (Optional T)) (i k : Nat) (o o₁ : Optional T)
    (h : w[i]? = some o) :
    flagAt (w.set i o₁) k = if i = k then o₁.is_initialized_ else flagAt w k := by
  have hlt : i < w.length := by
    rcases Nat.lt_or_ge i w.length with h₁ | h₁
    · exact h₁
    · rw [List.getElem?_eq_none h₁] at h; cases h
  by_cases hik : i = k
  · subst hik
    simp [flagAt, hlt]
  · simp [flagAt, List.getElem?_set_ne hik, hik]

theorem flagAt_append (w : List (Optional T)) (k : Nat) (o : Optional T) :
    flagAt (w ++ [o]) k = if k = w.length then o.is_initialized_ else flagAt w k := by
  rcases Nat.lt_trichotomy k w.length with h | h | h
  · simp [flagAt, List.getElem?_append_left h, Nat.ne_of_lt h]
  · subst h
    simp [flagAt]
  · have h₁ : w.length ≤ k := Nat.le_of_lt h
    have h₂ : (w ++ [o]).length ≤ k := by simp; omega
    simp [flagAt, List.getElem?_eq_none h₁, List.getElem?_eq_none h₂, Nat.ne_of_gt h]

theorem flagAt_length (w : List (Optional T)) : flagAt w w.length = false := by
  simp [flagAt]

theorem flagAt_of_getElem? (w : List (Optional T)) (i : Nat) (o : Optional T)
    (h : w[i]? = some o) : flagAt w i = o.is_initialized_ := by
  simp [flagAt, h]

theorem allConsistent_set (w : List (Optional T)) (i : Nat) (o : Optional T)
    (hw : AllConsistent w) (ho : o.Consistent) : AllConsistent (w.set i o) := by
  intro a ha
  rcases List.mem_or_eq_of_mem_set ha with h | h
  · exact hw a h
  · rw [h]; exact ho

theorem allConsistent_append (w : List (Optional T)) (o : Optional T)
    (hw : AllConsistent w) (ho : o.Consistent) : AllConsistent (w ++ [o]) := by
  intro a ha
  rcases List.mem_append.1 ha with h | h
  · exact hw a h
  · rw [List.mem_singleton.1 h]; exact ho

theorem allConsistent_getElem? (w : List (Optional T)) (i : Nat) (o : Optional T)
    (hw : AllConsistent w) (h : w[i]? = some o) : o.Consistent :=
  hw o (List.getElem?_mem h)

theorem skip_sound (w : List (Optional T)) (hw : AllConsistent w) (r : Res E Unit)
    (hr : r.isUndefined = false) : Step.Sound w (⟨w, [], r⟩ : Step T E) :=
  ⟨hw, hr, fun i => by simp [slotTrace, lifetime_nil]⟩

theorem isUndefined_forget {α : Type} (r : Res E α) :
    r.forget.isUndefined = r.isUndefined := by
  cases r <;> rfl

theorem onSlot_sound {α : Type} (w : List (Optional T)) (i : Nat)
    (f : Optional T → Call T E α) (hw : AllConsistent w)
    (hf : ∀ o, o.Consistent → Call.Sound o (f o)) : Step.Sound w (onSlot w i f) := by
  unfold onSlot
  rcases h : w[i]? with _ | o
  · exact skip_sound w hw _ rfl
  · obtain ⟨h₁, h₂, h₃⟩ := hf o (allConsistent_getElem? w i o hw h)
    refine ⟨allConsistent_set w i _ hw h₁, ?_, ?_⟩
    · simpa [isUndefined_forget] using h₂
    · intro k
      simp only [slotTrace_tag, flagAt_set w i k o _ h]
      by_cases hik : i = k
      · subst hik
        simp [flagAt_of_getElem? w i o h, h₃]
      · simp [hik, lifetime_nil]

theorem onNew_sound (w : List (Optional T)) (m : Made T E) (hw : AllConsistent w)
    (hm : m.Sound) : Step.Sound w (onNew w m) := by
  obtain ⟨h₁, h₂, h₃⟩ := hm
  rcases m with ⟨tr, r⟩
  cases r with
  | ok o =>
    refine ⟨allConsistent_append w o hw (h₁ o rfl), rfl, ?_⟩
    intro k
    simp only [onNew, slotTrace_tag, flagAt_append]
    by_cases hk : w.length = k
    · subst hk
      simpa [flagAt_length, Made.flag] using h₃
    · simp [hk, Ne.symm hk, lifetime_nil]
  | undefined => simp [Res.isUndefined] at h₂
  | badOptionalAccess =>
    refine ⟨hw, rfl, ?_⟩
    intro k
    simp only [onNew, slotTrace_tag]
    by_cases hk : w.length = k
    · subst hk
      simpa [flagAt_length, Made.flag] using h₃
    · simp [hk, lifetime_nil]
  | thrown e =>
    refine ⟨hw, rfl, ?_⟩
    intro k
    simp only [onNew, slotTrace_tag]
    by_cases hk : w.length = k
    · subst hk
      simpa [flagAt_length, Made.flag] using h₃
    · simp [hk, lifetime_nil]

theorem flagAt_set_same_flag (w : List (Optional T)) (j : Nat) (o o₁ : Optional T)
    (h : w[j]? = some o) (hf : o₁.is_initialized_ = o.is_initialized_) (k : Nat) :
    flagAt (w.set j o₁) k = flagAt w k := by
  rw [flagAt_set w j k o o₁ h]
  by_cases hjk : j = k
  · subst hjk
    simp [flagAt_of_getElem? w j o h, hf]
  · simp [hjk]

theorem step_sound (ops : TOps T A E) (w : List (Optional T)) (op : Op T A)
    (hw : AllConsistent w) : Step.Sound w (step ops w op) := by
  cases op with
  | mkDefault =>
    have h : step ops w (.mkDefault : Op T A) = onNew w ⟨[], .ok Optional.default⟩ := by
      simp [step, onNew, tag]
    rw [h]
    apply onNew_sound w _ hw
    simp [Made.Sound, Made.flag, Optional.default, Consistent, Res.isUndefined, lifetime]
  | mkConstRef v => exact onNew_sound w _ hw (ofConstRef_sound ops v)
  | mkRvalue v => exact onNew_sound w _ hw (ofRvalue_sound ops v)
  | mkCopy j =>
    simp only [step]
    rcases h : w[j]? with _ | o
    · exact skip_sound w hw _ rfl
    · exact onNew_sound w _ hw (copy_sound ops o (allConsistent_getElem? w j o hw h))
  | mkMove j =>
    simp only [step]
    rcases h : w[j]? with _ | o
    · exact skip_sound w hw _ rfl
    · obtain ⟨h₁, h₂, h₃⟩ := move_sound ops o (allConsistent_getElem? w j o hw h)
      obtain ⟨g₁, g₂, g₃⟩ := onNew_sound (w.set j (Optional.move ops o).other)
        ⟨(Optional.move ops o).trace, (Optional.move ops o).res⟩
        (allConsistent_set w j _ hw h₁) h₃
      refine ⟨g₁, g₂, fun k => ?_⟩
      rw [← flagAt_set_same_flag w j o _ h h₂ k]
      exact g₃ k
  | setConstRef i v =>
    exact onSlot_sound w i _ hw (fun o ho => assignConstRef_sound ops o v ho)
  | setRvalue i v =>
    exact onSlot_sound w i _ hw (fun o ho => assignRvalue_sound ops o v ho)
  | setCopy i j =>
    simp only [step]
    by_cases hij : i = j
    · rw [if_pos hij]
      exact onSlot_sound w i _ hw (fun o ho => assignCopySelf_sound ops o ho)
    · rw [if_neg hij]
      rcases h : w[j]? with _ | r
      · exact skip_sound w hw _ rfl
      · exact onSlot_sound w i _ hw
          (fun o ho => assignCopy_sound ops o r ho (allConsistent_getElem? w j r hw h))
  | setMove i j =>
    simp only [step]
    by_cases hij : i = j
    · rw [if_pos hij]
      exact onSlot_sound w i _ hw (fun o ho => assignMoveSelf_sound ops o ho)
    · rw [if_neg hij]
      rcases hi : w[i]? with _ | o
      · exact skip_sound w hw _ rfl
      · rcases hj : w[j]? with _ | r
        · exact skip_sound w hw _ rfl
        · obtain ⟨h₁, h₂, h₃, h₄, h₅⟩ := assignMove_sound ops o r
            (allConsistent_getElem? w i o hw hi) (allConsistent_getElem? w j r hw hj)
          have hj₁ : (w.set i (assignMove ops o r).self)[j]? = some r := by
            rw [List.getElem?_set_ne hij]; exact hj
          refine ⟨allConsistent_set _ j _ (allConsistent_set w i _ hw h₁) h₂, h₄, ?_⟩
          intro k
          simp only [slotTrace_tag]
          rw [flagAt_set_same_flag _ j r _ hj₁ h₃ k, flagAt_set w i k o _ hi]
          by_cases hik : i = k
          · subst hik
            simp [flagAt_of_getElem? w i o hi, h₅]
          · simp [hik, lifetime_nil]
  | emplace i vs => exact onSlot_sound w i _ hw (fun o ho => Emplace_sound ops o vs ho)
  | reset i => exact onSlot_sound w i _ hw (fun o ho => Reset_sound o ho)
  | value i => exact onSlot_sound w i _ hw (fun o ho => Value_sound o ho)
  | valueConst i =>
    simp only [step]
    rcases h : w[i]? with _ | o
    · exact skip_sound w hw _ rfl
    · apply skip_sound w hw
      rcases (consistent_iff o).1 (allConsistent_getElem? w i o hw h) with rfl | ⟨x, rfl⟩ <;>
        simp [ValueConst, Optional.empty, occupied, Res.forget, Res.isUndefined]
  | valueRvalue i => exact onSlot_sound w i _ hw (fun o ho => ValueRvalue_sound o ho)
  | hasValue i => exact skip_sound w hw _ rfl

theorem runFrom_sound (ops : TOps T A E) (prog : List (Op T A)) (w : List (Optional T))
    (hw : AllConsistent w) :
    AllConsistent (runFrom ops w prog).world ∧ (runFrom ops w prog).undefined = false ∧
    ∀ i, lifetime (flagAt w i) (slotTrace i (runFrom ops w prog).trace)
      = some (flagAt (runFrom ops w prog).world i) := by
  induction prog generalizing w with
  | nil => exact ⟨hw, rfl, fun i => by simp [runFrom, slotTrace, lifetime_nil]⟩
  | cons op rest ih =>
    obtain ⟨h₁, h₂, h₃⟩ := step_sound ops w op hw
    obtain ⟨g₁, g₂, g₃⟩ := ih (step ops w op).world h₁
    refine ⟨g₁, ?_, fun i => ?_⟩
    · simp [runFrom, h₂, g₂]
    · simp only [runFrom, slotTrace_append, lifetime_append, h₃ i, Option.some_bind]
      exact g₃ i

theorem destroyFrom_sound (w : List (Optional T)) (k : Nat) (hw : AllConsistent w) :
    (destroyFrom E k w).2 = false ∧
    ∀ i, lifetime (if i < k then false else flagAt w (i - k))
      (slotTrace i (destroyFrom E k w).1) = some false := by
  induction w generalizing k with
  | nil =>
    refine ⟨rfl, fun i => ?_⟩
    simp [destroyFrom, slotTrace, lifetime_nil, flagAt]
  | cons o rest ih =>
    have ho : o.Consistent := hw o (List.mem_cons_self _ _)
    obtain ⟨h₁, h₂⟩ := ih (k + 1) (fun a ha => hw a (List.mem_cons_of_mem _ ha))
    obtain ⟨-, r₂, r₃⟩ := @Reset_sound T E o ho
    rw [Reset_flag o ho] at r₃
    refine ⟨?_, fun i => ?_⟩
    · simp [destroyFrom, destructor, r₂, h₁]
    · have h₂i := h₂ i
      simp only [destroyFrom, destructor, slotTrace_append, slotTrace_tag, lifetime_append]
      by_cases hki : k = i
      · subst hki
        simp only [Nat.lt_irrefl, if_false, Nat.sub_self, if_true] at h₂i ⊢
        have hf : flagAt (o :: rest) 0 = o.is_initialized_ := by simp [flagAt]
        rw [hf, r₃, Option.some_bind]
        simpa using h₂i
      · simp only [if_neg hki, lifetime_nil, Option.some_bind]
        by_cases hlt : i < k
        · have hlt₁ : i < k + 1 := by omega
          simpa [hlt, hlt₁] using h₂i
        · have hlt₁ : ¬ i < k + 1 := by omega
          have hsub : i - k = (i - (k + 1)) + 1 := by omega
          have hf : flagAt (o :: rest) (i - k) = flagAt rest (i - (k + 1)) := by
            rw [hsub]; simp [flagAt]
          simpa [hlt, hlt₁, hf] using h₂i

/-- C9. For every element type, whether or not its operations throw, and every finite
client program of public operations over any number of instances, followed by the
destructor of every instance: no call ends in undefined behaviour, and for each
instance the completed element operations on its buffer form a lifetime that starts
and ends with a raw buffer, in which every construction happens in a buffer holding
no live object and every destruction destroys the one live object.  So every `T`
constructed in a buffer is destroyed exactly once: constructions and destructions are
equal in number for each instance. -/
theorem no_leak_no_double_destruction (ops : TOps T A E) (prog : List (Op T A)) :
    (runAndDestroy ops prog).2 = false ∧
    ∀ i, lifetime false (slotTrace i (runAndDestroy ops prog).1) = some false ∧
      (slotTrace i (runAndDestroy ops prog).1).count .construct
        = (slotTrace i (runAndDestroy ops prog).1).count .destroy := by
  have hnil : AllConsistent ([] : List (Optional T)) := fun a ha => by cases ha
  obtain ⟨h₁, h₂, h₃⟩ := runFrom_sound ops prog [] hnil
  obtain ⟨g₁, g₂⟩ := @destroyFrom_sound T E (runFrom ops [] prog).world 0 h₁
  have key : ∀ i, lifetime false (slotTrace i (runAndDestroy ops prog).1) = some false := by
    intro i
    have h₃i := h₃ i
    have g₂i := g₂ i
    simp only [flagAt, List.getElem?_nil] at h₃i
    simp only [Nat.not_lt_zero, if_false, Nat.sub_zero] at g₂i
    simp only [runAndDestroy, run, slotTrace_append, lifetime_append]
    rw [h₃i, Option.some_bind]
    exact g₂i
  refine ⟨?_, fun i => ⟨key i, ?_⟩⟩
  · simp [runAndDestroy, run, h₂, g₁]
  · simpa using lifetime_count false false _ (key i)

/-! ## The rvalue form of Value, and the operations of Emplace -/

/-- C11. On an instance occupied with `v` the rvalue form of `Value()` returns `v`,
leaves the instance as it was, so that `HasValue()` is still true right after the
call, and performs no element operation: no `T` is destroyed by the call. -/
theorem ValueRvalue_keeps_flag (v : T) :
    (ValueRvalue (occupied v) : Call T E T).res = .ok v ∧
    HasValue (ValueRvalue (occupied v) : Call T E T).self = true ∧
    (ValueRvalue (occupied v) : Call T E T).self = occupied v ∧
    (ValueRvalue (occupied v) : Call T E T).trace = [] ∧
    (ValueRvalue (occupied v) : Call T E T).trace.count .destroy = 0 := by
  simp [ValueRvalue, occupied, HasValue]

/-- C14. When `T(args...)` succeeds, `Emplace(args...)` on an occupied instance
performs exactly one destruction and then exactly one construction, and no
assignment; on an empty instance it performs exactly one construction and no
destruction. -/
theorem Emplace_operations (ops : TOps T A E) (x t : T) (vs : A)
    (hmk : ops.make vs = .ok t) :
    (Emplace ops (occupied x) (.independent vs)).trace = [.destroy, .construct] ∧
    (Emplace ops (occupied x) (.independent vs)).trace.count .assign = 0 ∧
    (Emplace ops (occupied x) (.independent vs)).self = occupied t ∧
    (Emplace ops Optional.empty (.independent vs)).trace = [.construct] ∧
    (Emplace ops Optional.empty (.independent vs)).trace.count .destroy = 0 ∧
    (Emplace ops Optional.empty (.independent vs)).self = occupied t := by
  simp [Emplace, Forwarded.read, Reset, HasValue, Optional.empty, occupied, hmk]

theorem Emplace_operations_witness :
    (Emplace natOps (occupied 7) (.independent (2, 3))).trace = [.destroy, .construct] ∧
    (Emplace natOps (occupied 7) (.independent (2, 3))).trace.count .assign = 0 ∧
    (Emplace natOps (occupied 7) (.independent (2, 3))).self = occupied 5 ∧
    (Emplace natOps Optional.empty (.independent (2, 3))).trace = [.construct] ∧
    (Emplace natOps Optional.empty (.independent (2, 3))).trace.count .destroy = 0 ∧
    (Emplace natOps Optional.empty (.independent (2, 3))).self = occupied 5 :=
  Emplace_operations natOps 7 5 (2, 3) rfl

/-! ## Where BadOptionalAccess can come from -/

/-- C15. Whatever the states of the target `s` and of the source `rhs`, flag and
buffer in agreement or not, and whatever the element type does: the copy and move
constructors and the copy and move assignment operators, which call the checked
`Value()` on their source only under the test of its flag, do not end with
`BadOptionalAccess`; nor do `Reset`, `Emplace` (whatever its arguments refer to), the
destructor and the two raw-value assignments.  `HasValue` returns a `Bool` and raises nothing. -/
theorem only_Value_raises_badOptionalAccess (ops : TOps T A E) (s rhs : Optional T)
    (v : T) (vs : Forwarded T A) :
    ((Optional.copy ops rhs).res ≠ .badOptionalAccess ∧
     (Optional.move ops rhs).res ≠ .badOptionalAccess ∧
     (assignCopy ops s rhs).res ≠ .badOptionalAccess ∧
     (assignMove ops s rhs).res ≠ .badOptionalAccess ∧
     (assignCopySelf ops s).res ≠ .badOptionalAccess ∧
     (assignMoveSelf ops s).res ≠ .badOptionalAccess) ∧
    ((Reset s : Call T E Unit).res ≠ .badOptionalAccess ∧
     (destructor s : Call T E Unit).res ≠ .badOptionalAccess ∧
     (Emplace ops s vs).res ≠ .badOptionalAccess ∧
     (assignConstRef ops s v).res ≠ .badOptionalAccess ∧
     (assignRvalue ops s v).res ≠ .badOptionalAccess) := by
  rcases s with ⟨d, f⟩
  rcases rhs with ⟨d₂, f₂⟩
  refine ⟨⟨?_, ?_, ?_, ?_, ?_, ?_⟩, ?_, ?_, ?_, ?_, ?_⟩
  · cases d₂ <;> cases f₂ <;> simp [Optional.copy, ValueConst]
    split <;> simp
  · cases d₂ <;> cases f₂ <;> simp [Optional.move, Value]
    split <;> simp
  · cases d <;> cases f <;> cases d₂ <;> cases f₂ <;>
      simp [assignCopy, ValueConst, Reset] <;> split <;> simp
  · cases d <;> cases f <;> cases d₂ <;> cases f₂ <;>
      simp [assignMove, Value, Reset] <;> split <;> simp
  · cases d <;> cases f <;> simp [assignCopySelf, ValueConst, Reset]
    split <;> simp
  · cases d <;> cases f <;> simp [assignMoveSelf, Value, Reset]
    split <;> simp
  · cases d <;> cases f <;> simp [Reset]
  · cases d <;> cases f <;> simp [destructor, Reset]
  · cases d <;> cases f <;> cases vs <;>
      simp [Emplace, Forwarded.read, HasValue, Reset] <;> split <;> simp
  · cases d <;> cases f <;> simp [assignConstRef] <;> split <;> simp
  · cases d <;> cases f <;> simp [assignRvalue] <;> split <;> simp

/-! ## Copy self-assignment -/

/-- C16. Copy-assigning an instance to itself, from every consistent state `s`: the
call does not end in undefined behaviour or `BadOptionalAccess`, `HasValue()` is
unchanged, and no `T` is destroyed or constructed.  On an empty instance it performs
no element operation at all and ends normally; on an instance occupied with `v` it
performs the self-assignment of `T` once, and when that leaves `v` as it is and does
not throw, the instance is still occupied with `v`. -/
theorem assignCopySelf_noop (ops : TOps T A E) (s : Optional T) (v : T)
    (hs : s.Consistent) (hself : ops.copyAssignSelf v = (v, none)) :
    (HasValue (assignCopySelf ops s).self = HasValue s ∧
     (assignCopySelf ops s).trace.count .destroy = 0 ∧
     (assignCopySelf ops s).trace.count .construct = 0 ∧
     (assignCopySelf ops s).res ≠ .undefined ∧
     (assignCopySelf ops s).res ≠ .badOptionalAccess) ∧
    assignCopySelf ops Optional.empty = ⟨Optional.empty, [], .ok ()⟩ ∧
    assignCopySelf ops (occupied v) = ⟨occupied v, [.assign], .ok ()⟩ := by
  refine ⟨?_, ?_, ?_⟩
  · rcases (consistent_iff s).1 hs with rfl | ⟨x, rfl⟩
    · simp [assignCopySelf, HasValue, Optional.empty]
    · rcases h : ops.copyAssignSelf x with ⟨c, _ | e⟩ <;>
        simp [assignCopySelf, ValueConst, HasValue, occupied, h]
  · simp [assignCopySelf, Optional.empty]
  · simp [assignCopySelf, ValueConst, occupied, hself]

theorem assignCopySelf_noop_witness :
    (HasValue (assignCopySelf natOps (occupied 7)).self = HasValue (occupied 7) ∧
     (assignCopySelf natOps (occupied 7)).trace.count .destroy = 0 ∧
     (assignCopySelf natOps (occupied 7)).trace.count .construct = 0 ∧
     (assignCopySelf natOps (occupied 7)).res ≠ .undefined ∧
     (assignCopySelf natOps (occupied 7)).res ≠ .badOptionalAccess) ∧
    assignCopySelf natOps Optional.empty = ⟨Optional.empty, [], .ok ()⟩ ∧
    assignCopySelf natOps (occupied 5) = ⟨occupied 5, [.assign], .ok ()⟩ :=
  assignCopySelf_noop natOps (occupied 7) 5 (by decide) rfl

/-! ## Flag and buffer after an exception of the element type -/

/-- C13. From consistent states of the target `s` and the source `rhs`: when
`Emplace` (whatever its arguments refer to), a raw-value assignment, or a copy or move assignment (between two
instances or of an instance to itself) ends with an exception `e` of the element
type, the flag of the instance agrees with its buffer: it is set exactly when the
buffer holds a live `T`.  After a move assignment this also holds of the source. -/
theorem flag_consistent_after_error (ops : TOps T A E) (s rhs : Optional T) (v : T)
    (vs : Forwarded T A) (hs : s.Consistent) (hr : rhs.Consistent) :
    (∀ e, (Emplace ops s vs).res = .thrown e →
      (Emplace ops s vs).self.is_initialized_ = (Emplace ops s vs).self.data_.isSome) ∧
    (∀ e, (assignConstRef ops s v).res = .thrown e →
      (assignConstRef ops s v).self.is_initialized_
        = (assignConstRef ops s v).self.data_.isSome) ∧
    (∀ e, (assignRvalue ops s v).res = .thrown e →
      (assignRvalue ops s v).self.is_initialized_
        = (assignRvalue ops s v).self.data_.isSome) ∧
    (∀ e, (assignCopy ops s rhs).res = .thrown e →
      (assignCopy ops s rhs).self.is_initialized_
        = (assignCopy ops s rhs).self.data_.isSome) ∧
    (∀ e, (assignMove ops s rhs).res = .thrown e →
      (assignMove ops s rhs).self.is_initialized_
        = (assignMove ops s rhs).self.data_.isSome ∧
      (assignMove ops s rhs).rhs.is_initialized_
        = (assignMove ops s rhs).rhs.data_.isSome) ∧
    (∀ e, (assignCopySelf ops s).res = .thrown e →
      (assignCopySelf ops s).self.is_initialized_
        = (assignCopySelf ops s).self.data_.isSome) ∧
    (∀ e, (assignMoveSelf ops s).res = .thrown e →
      (assignMoveSelf ops s).self.is_initialized_
        = (assignMoveSelf ops s).self.data_.isSome) := by
  refine ⟨fun _ _ => ?_, fun _ _ => ?_, fun _ _ => ?_, fun _ _ => ?_, fun _ _ => ⟨?_, ?_⟩,
    fun _ _ => ?_, fun _ _ => ?_⟩
  · exact Emplace_consistent ops s vs hs
  · exact (assignConstRef_sound ops s v hs).1
  · exact (assignRvalue_sound ops s v hs).1
  · exact (assignCopy_sound ops s rhs hs hr).1
  · exact (assignMove_sound ops s rhs hs hr).1
  · exact (assignMove_sound ops s rhs hs hr).2.1
  · exact (assignCopySelf_sound ops s hs).1
  · exact (assignMoveSelf_sound ops s hs).1

theorem flag_consistent_after_error_witness :
    ((Emplace natOps (occupied 7) (.independent (0, 1))).res = .thrown 1 ∧
     (Emplace natOps (occupied 7) (.independent (0, 1))).self.is_initialized_
       = (Emplace natOps (occupied 7) (.independent (0, 1))).self.data_.isSome) ∧
    ((assignConstRef natOps (occupied 7) 13).res = .thrown 4 ∧
     (assignConstRef natOps (occupied 7) 13).self.is_initialized_
       = (assignConstRef natOps (occupied 7) 13).self.data_.isSome) ∧
    ((assignRvalue natOps (occupied 7) 13).res = .thrown 5 ∧
     (assignRvalue natOps (occupied 7) 13).self.is_initialized_
       = (assignRvalue natOps (occupied 7) 13).self.data_.isSome) ∧
    ((assignCopy natOps (occupied 7) (occupied 13)).res = .thrown 4 ∧
     (assignCopy natOps (occupied 7) (occupied 13)).self.is_initialized_
       = (assignCopy natOps (occupied 7) (occupied 13)).self.data_.isSome) ∧
    ((assignMove natOps (occupied 7) (occupied 13)).res = .thrown 5 ∧
     (assignMove natOps (occupied 7) (occupied 13)).self.is_initialized_
       = (assignMove natOps (occupied 7) (occupied 13)).self.data_.isSome ∧
     (assignMove natOps (occupied 7) (occupied 13)).rhs.is_initialized_
       = (assignMove natOps (occupied 7) (occupied 13)).rhs.data_.isSome) ∧
    ((assignConstRef natOps Optional.empty 13).res = .thrown 2 ∧
     (assignConstRef natOps Optional.empty 13).self.is_initialized_
       = (assignConstRef natOps Optional.empty 13).self.data_.isSome) ∧
    ((assignMove natOps Optional.empty (occupied 13)).res = .thrown 3 ∧
     (assignMove natOps Optional.empty (occupied 13)).self.is_initialized_
       = (assignMove natOps Optional.empty (occupied 13)).self.data_.isSome ∧
     (assignMove natOps Optional.empty (occupied 13)).rhs.is_initialized_
       = (assignMove natOps Optional.empty (occupied 13)).rhs.data_.isSome) :=
  have h₁ := flag_consistent_after_error natOps (occupied 7) (occupied 13) 13
    (.independent (0, 1)) (by decide) (by decide)
  have h₂ := flag_consistent_after_error natOps Optional.empty (occupied 13) 13
    (.independent (0, 1)) (by decide) (by decide)
  ⟨⟨rfl, h₁.1 1 rfl⟩, ⟨rfl, h₁.2.1 4 rfl⟩, ⟨rfl, h₁.2.2.1 5 rfl⟩, ⟨rfl, h₁.2.2.2.1 4 rfl⟩,
    ⟨rfl, h₁.2.2.2.2.1 5 rfl⟩, ⟨rfl, h₂.2.1 2 rfl⟩, ⟨rfl, h₂.2.2.2.2.1 3 rfl⟩⟩

/-! ## The invariant of flag and buffer -/

theorem consistent_liveCount (o : Optional T) (ho : o.Consistent) :
    (o.is_initialized_ = false ∧ o.liveCount = 0) ∨
    (o.is_initialized_ = true ∧ o.liveCount = 1) := by
  rcases (consistent_iff o).1 ho with rfl | ⟨x, rfl⟩ <;>
    simp [Optional.liveCount, Optional.empty, occupied]

theorem flagAt_eq_liveAt (w : List (Optional T)) (hw : AllConsistent w) (i : Nat) :
    flagAt w i = liveAt w i := by
  unfold flagAt liveAt
  rcases h : w[i]? with _ | o
  · rfl
  · exact allConsistent_getElem? w i o hw h

/-- C12. After every finite client program that starts with no instance and uses the
constructors, the assignments, `Emplace`, `Reset`, `Value` and the moves, whatever the
element type does: every instance has either its flag clear and no live object in its
buffer, or its flag set and exactly one live object in it; no call has ended in
undefined behaviour; and for each instance the element operations on its buffer
replay as a lifetime, so that no `T` was constructed in a buffer that held a live
object, which ends with the buffer as it is in the final state. -/
theorem flag_storage_invariant (ops : TOps T A E) (prog : List (Op T A)) :
    (∀ o ∈ (run ops prog).world,
      (o.is_initialized_ = false ∧ o.liveCount = 0) ∨
      (o.is_initialized_ = true ∧ o.liveCount = 1)) ∧
    (run ops prog).undefined = false ∧
    ∀ i, lifetime false (slotTrace i (run ops prog).trace)
      = some (liveAt (run ops prog).world i) := by
  have hnil : AllConsistent ([] : List (Optional T)) := fun a ha => by cases ha
  obtain ⟨h₁, h₂, h₃⟩ := runFrom_sound ops prog [] hnil
  refine ⟨fun o ho => consistent_liveCount o (h₁ o ho), h₂, fun i => ?_⟩
  have h₀ : flagAt ([] : List (Optional T)) i = false := rfl
  have h₃i := h₃ i
  rw [h₀, flagAt_eq_liveAt _ h₁ i] at h₃i
  exact h₃i

/-! ## Refinement of the tagged union -/

/-- C17, refuted as stated: for the regular element type `regOps` and an instance
occupied with `7`, `Emplace` with an argument that refers to the contained object, as
in `o.Emplace(*o, 1)`, for which `T(7, 1)` is the object `8`, ends in undefined
behaviour, the contained object destroyed before the constructor reads it: the call
does not end normally with an instance that abstracts to `Occupied 8`, which is what
emplacing `T(7, 1)` in the tagged union gives. -/
theorem Emplace_of_contained_not_refined :
    regOps.make ((fun x => (x, 1)) 7) = .ok 8 ∧
    TaggedUnion.emplace (occupied 7).abs 8 = .Occupied 8 ∧
    (Emplace regOps (occupied 7) (.contained (fun x => (x, 1)))).res = .undefined ∧
    ¬ ((Emplace regOps (occupied 7) (.contained (fun x => (x, 1)))).res = .ok () ∧
       (Emplace regOps (occupied 7) (.contained (fun x => (x, 1)))).self.abs
         = TaggedUnion.emplace (occupied 7).abs 8) :=
  ⟨rfl, rfl, rfl, fun h => by cases h.1⟩

/-- C17, amended.  For a regular element type and consistent instances `s` and `rhs`,
the flag and the buffer refine the tagged union under the abstraction `abs`: default
construction is `Empty`; construction from `v`, by copy or by move, is `Occupied v`;
copy construction and copy assignment from `rhs` give `abs rhs`; assignment of the raw
value `v`, by copy or by move, gives `Occupied v`; `Emplace(args...)` with arguments
that do not refer to the contained object gives `Occupied t` for `t` the object
`T(args...)`; `Reset` gives `Empty`; `HasValue` tells whether the union is occupied;
and the three forms of `Value()` return `v` on `Occupied v` and end with
`BadOptionalAccess` on `Empty`.  Every one of the constructors and mutators ends
normally. -/
theorem refines_TaggedUnion (ops : TOps T A E) (s rhs : Optional T) (v t : T) (vs : A)
    (hs : s.Consistent) (hr : rhs.Consistent) (hreg : ops.Regular)
    (hmk : ops.make vs = .ok t) :
    (Optional.abs (Optional.default : Optional T) = TaggedUnion.default ∧
     (∃ o, (ofConstRef ops v).res = .ok o ∧ o.abs = TaggedUnion.ofValue v) ∧
     (∃ o, (ofRvalue ops v).res = .ok o ∧ o.abs = TaggedUnion.ofValue v) ∧
     (∃ o, (Optional.copy ops rhs).res = .ok o ∧ o.abs = TaggedUnion.copy rhs.abs)) ∧
    ((assignCopy ops s rhs).res = .ok () ∧
       (assignCopy ops s rhs).self.abs = TaggedUnion.assignCopy s.abs rhs.abs) ∧
    ((assignConstRef ops s v).res = .ok () ∧
       (assignConstRef ops s v).self.abs = TaggedUnion.assignValue s.abs v) ∧
    ((assignRvalue ops s v).res = .ok () ∧
       (assignRvalue ops s v).self.abs = TaggedUnion.assignValue s.abs v) ∧
    ((Emplace ops s (.independent vs)).res = .ok () ∧
       (Emplace ops s (.independent vs)).self.abs = TaggedUnion.emplace s.abs t) ∧
    ((Reset s : Call T E Unit).res = .ok () ∧
       (Reset s : Call T E Unit).self.abs = TaggedUnion.reset s.abs) ∧
    HasValue s = TaggedUnion.hasValue s.abs ∧
    ((Value s : Call T E T).res = TaggedUnion.value s.abs ∧
     (ValueConst s : Res E T) = TaggedUnion.value s.abs ∧
     (ValueRvalue s : Call T E T).res = TaggedUnion.value s.abs) := by
  obtain ⟨hcc, hmc, hca, hma⟩ := hreg
  refine ⟨⟨rfl, ⟨occupied v, ?_⟩, ⟨occupied v, ?_⟩, ⟨rhs, ?_⟩⟩, ?_, ?_, ?_, ?_, ?_, ?_, ?_⟩
  · simp [ofConstRef, hcc, occupied, Optional.abs, TaggedUnion.ofValue]
  · simp [ofRvalue, hmc, occupied, Optional.abs, TaggedUnion.ofValue]
  · rcases (consistent_iff rhs).1 hr with rfl | ⟨y, rfl⟩ <;>
      simp [Optional.copy, ValueConst, hcc, Optional.empty, occupied, TaggedUnion.copy]
  · rcases (consistent_iff s).1 hs with rfl | ⟨x, rfl⟩ <;>
      rcases (consistent_iff rhs).1 hr with rfl | ⟨y, rfl⟩ <;>
        simp [assignCopy, ValueConst, Reset, hcc, hca, Optional.empty, occupied,
          Optional.abs, TaggedUnion.assignCopy]
  · rcases (consistent_iff s).1 hs with rfl | ⟨x, rfl⟩ <;>
      simp [assignConstRef, hcc, hca, Optional.empty, occupied, Optional.abs,
        TaggedUnion.assignValue]
  · rcases (consistent_iff s).1 hs with rfl | ⟨x, rfl⟩
    · simp [assignRvalue, hmc, Optional.empty, Optional.abs, TaggedUnion.assignValue]
    · obtain ⟨h₁, h₂⟩ := hma x v
      rcases hx : ops.moveAssign x v with ⟨d, src, e⟩
      rw [hx] at h₁ h₂
      simp only at h₁ h₂
      subst h₁ h₂
      simp [assignRvalue, hx, occupied, Optional.abs, TaggedUnion.assignValue]
  · rcases (consistent_iff s).1 hs with rfl | ⟨x, rfl⟩ <;>
      simp [Emplace, Forwarded.read, Reset, HasValue, hmk, Optional.empty, occupied,
        Optional.abs, TaggedUnion.emplace]
  · rcases (consistent_iff s).1 hs with rfl | ⟨x, rfl⟩ <;>
      simp [Reset, Optional.empty, occupied, Optional.abs, TaggedUnion.reset]
  · rcases (consistent_iff s).1 hs with rfl | ⟨x, rfl⟩ <;>
      simp [HasValue, Optional.empty, occupied, Optional.abs, TaggedUnion.hasValue]
  · rcases (consistent_iff s).1 hs with rfl | ⟨x, rfl⟩ <;>
      simp [Value, ValueConst, ValueRvalue, Optional.empty, occupied, Optional.abs,
        TaggedUnion.value]

theorem regOps_regular : regOps.Regular :=
  ⟨fun _ => rfl, fun _ => rfl, fun _ _ => rfl, fun _ _ => ⟨rfl, rfl⟩⟩

theorem refines_TaggedUnion_witness :
    (Optional.abs (Optional.default : Optional Nat) = TaggedUnion.default ∧
     (∃ o, (ofConstRef regOps 5).res = .ok o ∧ o.abs = TaggedUnion.ofValue 5) ∧
     (∃ o, (ofRvalue regOps 5).res = .ok o ∧ o.abs = TaggedUnion.ofValue 5) ∧
     (∃ o, (Optional.copy regOps (occupied 9)).res = .ok o ∧
       o.abs = TaggedUnion.copy (occupied 9).abs)) ∧
    ((assignCopy regOps (occupied 7) (occupied 9)).res = .ok () ∧
       (assignCopy regOps (occupied 7) (occupied 9)).self.abs
         = TaggedUnion.assignCopy (occupied 7).abs (occupied 9).abs) ∧
    ((assignConstRef regOps (occupied 7) 5).res = .ok () ∧
       (assignConstRef regOps (occupied 7) 5).self.abs
         = TaggedUnion.assignValue (occupied 7).abs 5) ∧
    ((assignRvalue regOps (occupied 7) 5).res = .ok () ∧
       (assignRvalue regOps (occupied 7) 5).self.abs
         = TaggedUnion.assignValue (occupied 7).abs 5) ∧
    ((Emplace regOps (occupied 7) (.independent (1, 2))).res = .ok () ∧
       (Emplace regOps (occupied 7) (.independent (1, 2))).self.abs
         = TaggedUnion.emplace (occupied 7).abs 3) ∧
    ((Reset (occupied 7) : Call Nat Nat Unit).res = .ok () ∧
       (Reset (occupied 7) : Call Nat Nat Unit).self.abs
         = TaggedUnion.reset (occupied 7).abs) ∧
    HasValue (occupied 7) = TaggedUnion.hasValue (occupied 7).abs ∧
    ((Value (occupied 7) : Call Nat Nat Nat).res = TaggedUnion.value (occupied 7).abs ∧
     (ValueConst (occupied 7) : Res Nat Nat) = TaggedUnion.value (occupied 7).abs ∧
     (ValueRvalue (occupied 7) : Call Nat Nat Nat).res
       = TaggedUnion.value (occupied 7).abs) :=
  refines_TaggedUnion regOps (occupied 7) (occupied 9) 5 3 (1, 2) (by decide) (by decide)
    regOps_regular rfl

end OptionalSpec
